import Mathlib

/-!
# Sudoku realtime server (`server.js`): a verification development

A shallow embedding of the session lifecycle manager of `server.js`:
the solved-state checker `isSolved`, the matchmaking queue with `tryMatch`,
the socket event handlers and the housekeeping sweep, followed by
theorems about them.

Conventions of the embedding.

* JavaScript strings are lists of characters (`JsString`); connection
  identities (`socket.id`) and room identifiers are strings.
* `Map` and `Set` objects are insertion-ordered lists (`mapGet`, `mapSet`,
  `mapDelete`, `setAdd`), as in JavaScript.
* `Date.now()` is the instant `now` at which a handler runs; `Math.random()`
  is an oracle handed to the handlers that draw from it; the transport's
  table of connected sockets (`io.sockets.sockets`) is the oracle `live`.
* What a handler sends is returned as a list of `Out` values, in program
  order.
-/

namespace SudokuServer

/-! ## Solved-state checker -/

/-- A JavaScript string as the list of its characters. -/
abbrev JsString := List Char

/-- A grid as the client submits it: an array of rows of integers. -/
abbrev Grid := List (List Int)

/-- The string of an integer as `String(x)` yields it: decimal digits, with a
leading minus sign for a negative number (JavaScript switches to exponent
notation from 10^21 on; such a string, too, has more than one character). -/
def jsToString (x : Int) : JsString :=
  if x < 0 then '-' :: Nat.toDigits 10 x.natAbs else Nat.toDigits 10 x.toNat

/-- The default comparison of `Array.prototype.sort`: elements are compared
by their strings, in code-unit order. -/
def jsSortLe (a b : Int) : Prop := jsToString a ≤ jsToString b

instance : DecidableRel jsSortLe := fun a b =>
  inferInstanceAs (Decidable (jsToString a ≤ jsToString b))

/-- The array after `.sort()` with no comparator (the sort is stable). -/
def jsSort (l : List Int) : List Int := List.insertionSort jsSortLe l

/-- The string `arr.join('')`. -/
def jsJoin (l : List Int) : JsString := (l.map jsToString).flatten

/-- The constant `want = '123456789'`. -/
def want : JsString := ['1', '2', '3', '4', '5', '6', '7', '8', '9']

/-- The test `arr.sort().join('') !== want` of `isSolved`, negated. -/
def unitOk (l : List Int) : Bool := decide (jsJoin (jsSort l) = want)

/-- The cell `grid[r][c]`; both indices are in range wherever `isSolved` reads
a cell, because the shape test of the first loop has passed by then. -/
def cell (grid : Grid) (r c : Nat) : Int := (grid.getD r []).getD c 0

/-- The array `col` built by the second loop for column `c`. -/
def colOf (grid : Grid) (c : Nat) : List Int :=
  (List.range 9).map fun r => cell grid r c

/-- The array `box` built by the third loop for box `(br, bc)`: rows
`3*br .. 3*br+2`, and within each row columns `3*bc .. 3*bc+2`. -/
def boxOf (grid : Grid) (br bc : Nat) : List Int :=
  ((List.range 3).map fun i =>
    (List.range 3).map fun j => cell grid (br * 3 + i) (bc * 3 + j)).flatten

/-- The function `isSolved(grid)` for a grid that is an array of arrays of
integers. -/
def isSolved (grid : Grid) : Bool :=
  if grid.length ≠ 9 then false
  else if !((List.range 9).all fun r =>
      decide ((grid.getD r []).length = 9) && unitOk (grid.getD r [])) then false
  else if !((List.range 9).all fun c => unitOk (colOf grid c)) then false
  else if !((List.range 3).all fun br =>
      (List.range 3).all fun bc => unitOk (boxOf grid br bc)) then false
  else true

/-! ### The specification of a solved grid, in the words of the spec -/

/-- Spec side: the entry at row `r`, column `c`, when the grid has one. -/
def entry? (grid : Grid) (r c : Nat) : Option Int := (grid.get? r).bind fun row => row.get? c

/-- Spec side: the digit `d` stands at exactly one of the positions `ps`. -/
def occursOnce (grid : Grid) (ps : List (Nat × Nat)) (d : Int) : Prop :=
  (ps.filter fun p => entry? grid p.1 p.2 = some d).length = 1

/-- Spec side: the nine positions of row `r`. -/
def rowPositions (r : Nat) : List (Nat × Nat) := (List.range 9).map fun c => (r, c)

/-- Spec side: the nine positions of column `c`. -/
def colPositions (c : Nat) : List (Nat × Nat) := (List.range 9).map fun r => (r, c)

/-- Spec side: the nine positions of the box of rows `3i..3i+2`, columns
`3j..3j+2`. -/
def boxPositions (i j : Nat) : List (Nat × Nat) :=
  [(3*i, 3*j), (3*i, 3*j+1), (3*i, 3*j+2),
   (3*i+1, 3*j), (3*i+1, 3*j+1), (3*i+1, 3*j+2),
   (3*i+2, 3*j), (3*i+2, 3*j+1), (3*i+2, 3*j+2)]

/-- Spec side: the grid has exactly 9 rows of exactly 9 cells, and every row,
every column and every 3x3 box holds each digit 1..9 exactly once. -/
def SpecSolved (grid : Grid) : Prop :=
  grid.length = 9 ∧ (∀ row ∈ grid, row.length = 9) ∧
  ∀ d : Int, 1 ≤ d → d ≤ 9 →
    (∀ r < 9, occursOnce grid (rowPositions r) d) ∧
    (∀ c < 9, occursOnce grid (colPositions c) d) ∧
    (∀ i < 3, ∀ j < 3, occursOnce grid (boxPositions i j) d)

/-- Spec side: the 27 units of a grid: its rows, its columns and its boxes. -/
def allUnits : List (List (Nat × Nat)) :=
  (List.range 9).map rowPositions ++ (List.range 9).map colPositions ++
    ((List.range 3).map fun i => (List.range 3).map fun j => boxPositions i j).flatten

/-- A solved grid, used to instantiate the theorems. -/
def solvedGrid : Grid :=
  [[4,3,5,2,6,9,7,8,1],[6,8,2,5,7,1,4,9,3],[1,9,7,8,3,4,5,6,2],
   [8,2,6,1,9,5,3,4,7],[3,7,4,6,8,2,9,1,5],[9,5,1,7,4,3,6,2,8],
   [5,1,9,3,2,6,8,7,4],[2,4,8,9,5,7,1,3,6],[7,6,3,4,1,8,2,5,9]]

/-! ## Server state -/

/-- A connection identity, `socket.id`. -/
abbrev ConnId := String

/-- A room identifier, as `makeRoomId` produces it. -/
abbrev RoomId := String

/-- Truthiness of a value that is a string, `undefined` or `null`. -/
def truthy : Option String → Bool
  | some t => t ≠ ""
  | none => false

/-- The string `x || d` for a string-or-undefined `x` and a string `d`. -/
def strOr (x : Option String) (d : String) : String :=
  match x with
  | some t => if t ≠ "" then t else d
  | none => d

/-- The number `x || d` for a number-or-undefined `x`: zero is falsy. -/
def numOr (x : Option Int) (d : Int) : Int :=
  match x with
  | some t => if t = 0 then d else t
  | none => d

/-- The method `Map.prototype.get`. -/
def mapGet {α : Type} : List (String × α) → String → Option α
  | [], _ => none
  | (k, v) :: m, key => if k = key then some v else mapGet m key

/-- The method `Map.prototype.has`. -/
def mapHas {α : Type} (m : List (String × α)) (key : String) : Bool :=
  (mapGet m key).isSome

/-- The method `Map.prototype.set`: an existing key keeps its place, a new key
goes to the end. -/
def mapSet {α : Type} : List (String × α) → String → α → List (String × α)
  | [], key, v => [(key, v)]
  | (k, w) :: m, key, v => if k = key then (key, v) :: m else (k, w) :: mapSet m key v

/-- The method `Map.prototype.delete`. -/
def mapDelete {α : Type} : List (String × α) → String → List (String × α)
  | [], _ => []
  | (k, w) :: m, key => if k = key then m else (k, w) :: mapDelete m key

/-- The method `Set.prototype.add`. -/
def setAdd (l : List ConnId) (x : ConnId) : List ConnId :=
  if l.contains x then l else l ++ [x]

/-- An entry `{ socketId, name }` of `queue`. -/
structure QueueEntry where
  socketId : ConnId
  name : String
  deriving DecidableEq, Repr

/-- A value `{ name, roomId, finding }` of `players`; a field that is
`undefined` or `null` is `none`, so `{}` is `emptyMeta`. -/
structure PlayerMeta where
  name : Option String
  roomId : Option RoomId
  finding : Option Bool
  deriving DecidableEq, Repr

/-- The object `{}` standing in for a missing player record. -/
def emptyMeta : PlayerMeta := ⟨none, none, none⟩

/-- A value of `rooms`; `dcTimer` holds the handle `setTimeout` returned. -/
structure Room where
  players : List ConnId
  puzzle : Grid
  startAtMs : Option Int
  finished : Bool
  ready : List ConnId
  rematch : List ConnId
  gone : List (ConnId × Int)
  dcTimer : Option Nat
  deriving DecidableEq, Repr

/-- A pending timeout armed by the disconnect handler: its handle, the
`meta.roomId` and `socket.id` its closure captured, and the instant it is due. -/
structure Timer where
  id : Nat
  roomId : RoomId
  socketId : ConnId
  fireAt : Int
  deriving DecidableEq, Repr

/-- The module state: `rooms`, `queue`, `players`, and the timeouts of the
event loop that are pending (`nextTimer` is the next handle of `setTimeout`). -/
structure State where
  rooms : List (RoomId × Room)
  queue : List QueueEntry
  players : List (ConnId × PlayerMeta)
  timers : List Timer
  nextTimer : Nat
  deriving DecidableEq, Repr

/-- The state when the module has loaded. -/
def State.init : State := ⟨[], [], [], [], 0⟩

/-- Whom an emit addresses: `socket.emit`, `io.to(room).emit`, or
`socket.to(room).emit` (the room without the sender). -/
inductive Target where
  | socket (id : ConnId)
  | room (roomId : RoomId)
  | others (roomId : RoomId) (id : ConnId)
  deriving DecidableEq, Repr

/-- The events the server emits, with their payloads. -/
inductive Msg where
  | welcome (id : ConnId)
  | pong (now : Int)
  | matchStatus (finding : Bool) (queueSize : Nat)
  | matchFound (roomId : RoomId) (opponentName : String)
  | gameStart (roomId : RoomId) (puzzle : Grid) (startAt : Int)
  | finishRejected
  | gameWin (winnerSocketId : Option ConnId) (elapsedMs : Int)
  | rematchStatus (waiting : Bool)
  | rematchDenied (reason : String)
  | opponentDisconnected (graceMs : Int)
  | opponentReconnected
  | resumeOk (roomId : RoomId) (startAtMs : Option Int) (puzzle : Grid)
  deriving DecidableEq, Repr

/-- What a handler asks of the transport, in program order. -/
inductive Out where
  | emit (target : Target) (msg : Msg)
  | join (id : ConnId) (roomId : RoomId)
  deriving DecidableEq, Repr

/-- One round of random draws: the six-character tail of `makeRoomId` and the
index `Math.floor(Math.random() * puzzles.length)`. -/
structure Draw where
  suffix : String
  idx : Fin 3

/-- What a handler reads from outside the module: the clock `Date.now()` (the
milliseconds since the epoch, a natural number), the table of connected
sockets and the random draws. -/
structure Env where
  now : Nat
  live : ConnId → Bool
  draws : Nat → Draw

/-- The constant `GRACE_MS`. -/
def GRACE_MS : Int := 8000

/-- The constant `puzzles`. -/
def puzzles : List Grid :=
  [[[0,0,0,2,6,0,7,0,1],[6,8,0,0,7,0,0,9,0],[1,9,0,0,0,4,5,0,0],[8,2,0,1,0,0,0,4,0],
    [0,0,4,6,0,2,9,0,0],[0,5,0,0,0,3,0,2,8],[0,0,9,3,0,0,0,7,4],[0,4,0,0,5,0,0,3,6],
    [7,0,3,0,1,8,0,0,0]],
   [[0,2,0,0,0,6,0,0,9],[0,0,0,0,9,0,0,5,0],[8,0,0,0,0,5,0,0,2],[0,0,8,0,0,0,0,2,0],
    [0,7,0,4,0,1,0,9,0],[0,3,0,0,0,0,6,0,0],[5,0,0,6,0,0,0,0,7],[0,4,0,0,1,0,0,0,0],
    [9,0,0,3,0,0,0,1,0]],
   [[0,0,6,0,0,0,2,8,0],[0,0,0,0,0,3,0,0,6],[7,0,0,0,8,0,0,0,4],[0,0,0,9,0,0,1,0,0],
    [5,0,0,0,0,0,0,0,2],[0,0,2,0,0,4,0,0,0],[2,0,0,0,1,0,0,0,7],[6,0,0,4,0,0,0,0,0],
    [0,5,1,0,0,0,8,0,0]]]

/-- The function `pickPuzzle()`, given the index it drew. -/
def pickPuzzle (i : Fin 3) : Grid := puzzles.get ⟨i.val, by have := i.isLt; simp [puzzles]⟩

/-- The function `makeRoomId()`, given the characters it drew. -/
def makeRoomId (suffix : String) : RoomId := "room_" ++ suffix

/-- The room object that `tryMatch` stores for the pair `a`, `b`. -/
def newRoom (a b : ConnId) (puzzle : Grid) : Room :=
  { players := [a, b], puzzle := puzzle, startAtMs := none, finished := false,
    ready := [], rematch := [], gone := [], dcTimer := none }

/-- The loop of `tryMatch()` over the queue, with the rooms, the player
records and the output so far; `k` counts the draws used. Queue entries are
objects, so the test `!a || !b` never holds and is left out. -/
def tryMatchLoop (env : Env) :
    List QueueEntry → Nat → List (RoomId × Room) → List (ConnId × PlayerMeta) → List Out →
      List QueueEntry × List (RoomId × Room) × List (ConnId × PlayerMeta) × List Out
  | a :: b :: rest, k, rooms, players, outs =>
    if a.socketId = b.socketId then tryMatchLoop env rest k rooms players outs
    else if !env.live a.socketId || !env.live b.socketId then
      tryMatchLoop env rest k rooms players outs
    else
      let roomId := makeRoomId (env.draws k).suffix
      let pA0 := (mapGet players a.socketId).getD emptyMeta
      let pB0 := (mapGet players b.socketId).getD emptyMeta
      let nameA := if a.name ≠ "" then a.name else strOr pA0.name "Player A"
      let nameB := if b.name ≠ "" then b.name else strOr pB0.name "Player B"
      let pA : PlayerMeta := { name := some nameA, roomId := some roomId, finding := some false }
      let pB : PlayerMeta := { name := some nameB, roomId := some roomId, finding := some false }
      let players2 := mapSet (mapSet players a.socketId pA) b.socketId pB
      let rooms2 := mapSet rooms roomId
        (newRoom a.socketId b.socketId (pickPuzzle (env.draws k).idx))
      tryMatchLoop env rest (k + 1) rooms2 players2
        (outs ++ [Out.join a.socketId roomId, Out.join b.socketId roomId,
          Out.emit (Target.socket a.socketId) (Msg.matchFound roomId nameB),
          Out.emit (Target.socket b.socketId) (Msg.matchFound roomId nameA)])
  | q, _, rooms, players, outs => (q, rooms, players, outs)

/-- The function `tryMatch()`. -/
def tryMatch (env : Env) (s : State) : State × List Out :=
  let r := tryMatchLoop env s.queue 0 s.rooms s.players []
  ({ s with queue := r.1, rooms := r.2.1, players := r.2.2.1 }, r.2.2.2)

/-- The value `Math.min(...xs)`; `none` is `Infinity`. -/
def minOf : List Int → Option Int
  | [] => none
  | x :: xs => match minOf xs with
    | none => some x
    | some m => some (min x m)

/-- Whether the housekeeping interval deletes this room at `now`. -/
def reaped (now : Int) (room : Room) : Bool :=
  if room.players.all fun pid => mapHas room.gone pid then
    match minOf (room.players.map fun pid => numOr (mapGet room.gone pid) now) with
    | none => false
    | some oldest => decide (now - oldest > 30000)
  else false

/-- The callback of `setInterval`: the housekeeping sweep. -/
def sweep (env : Env) (s : State) : State × List Out :=
  ({ s with
      rooms := s.rooms.filter fun e => !reaped env.now e.2
      queue := s.queue.filter fun q => env.live q.socketId }, [])

/-- The body of `io.on('connection', ...)` before the handlers are bound. -/
def onConnection (s : State) (id : ConnId) : State × List Out :=
  ({ s with players := mapSet s.players id ⟨none, none, some false⟩ },
    [Out.emit (Target.socket id) (Msg.welcome id)])

/-- The handler of `client:hello`. -/
def onHello (s : State) (id : ConnId) (name : Option String) : State × List Out :=
  let m := (mapGet s.players id).getD emptyMeta
  let m2 := if truthy name then { m with name := name } else m
  ({ s with players := mapSet s.players id m2 }, [])

/-- The handler of `client:ping`. -/
def onPing (env : Env) (s : State) (id : ConnId) : State × List Out :=
  (s, [Out.emit (Target.socket id) (Msg.pong env.now)])

/-- The handler of `match:find`. -/
def onMatchFind (env : Env) (s : State) (id : ConnId) (name : Option String) :
    State × List Out :=
  let m := (mapGet s.players id).getD emptyMeta
  let m2 := if truthy name then { m with name := name } else m
  let m3 := { m2 with finding := some true }
  let s1 := { s with players := mapSet s.players id m3 }
  if s1.queue.any fun q => q.socketId = id then (s1, [])
  else
    let q := s1.queue ++ [⟨id, strOr m3.name "Player"⟩]
    let r := tryMatch env { s1 with queue := q }
    (r.1, Out.emit (Target.socket id) (Msg.matchStatus true q.length) :: r.2)

/-- The handler of `match:cancel`. -/
def onMatchCancel (s : State) (id : ConnId) : State × List Out :=
  let q := s.queue.eraseP fun e => e.socketId = id
  let m := (mapGet s.players id).getD emptyMeta
  ({ s with queue := q, players := mapSet s.players id { m with finding := some false } },
    [Out.emit (Target.socket id) (Msg.matchStatus false q.length)])

/-- The handler of `game:ready`. -/
def onGameReady (env : Env) (s : State) (id : ConnId) (roomId : RoomId) : State × List Out :=
  match mapGet s.rooms roomId with
  | none => (s, [])
  | some room =>
    if !room.players.contains id then (s, [])
    else
      let room1 := { room with ready := setAdd room.ready id }
      if room1.ready.length = room1.players.length then
        let room2 := { room1 with startAtMs := some (env.now + 1500) }
        ({ s with rooms := mapSet s.rooms roomId room2 },
          [Out.emit (Target.room roomId) (Msg.gameStart roomId room2.puzzle (env.now + 1500))])
      else ({ s with rooms := mapSet s.rooms roomId room1 }, [])

/-- The expression `Math.max(0, Date.now() - (room.startAtMs || Date.now()))`. -/
def elapsedMs (now : Int) (startAtMs : Option Int) : Int :=
  max 0 (now - numOr startAtMs now)

/-- The handler of `game:finish`. -/
def onGameFinish (env : Env) (s : State) (id : ConnId) (roomId : RoomId) (grid : Grid) :
    State × List Out :=
  match mapGet s.rooms roomId with
  | none => (s, [])
  | some room =>
    if room.finished || !room.players.contains id then (s, [])
    else if !isSolved grid then (s, [Out.emit (Target.socket id) Msg.finishRejected])
    else
      ({ s with rooms := mapSet s.rooms roomId { room with finished := true } },
        [Out.emit (Target.room roomId)
          (Msg.gameWin (some id) (elapsedMs env.now room.startAtMs))])

/-- The handler of `game:rematch_request`. -/
def onRematchRequest (env : Env) (s : State) (id : ConnId) (roomId : RoomId) :
    State × List Out :=
  match mapGet s.rooms roomId with
  | none => (s, [])
  | some room =>
    if !room.players.contains id then (s, [])
    else if room.gone.length > 0 then
      (s, [Out.emit (Target.socket id) (Msg.rematchDenied "opponent_offline")])
    else
      let room1 := { room with rematch := setAdd room.rematch id }
      let waiting := Out.emit (Target.others roomId id) (Msg.rematchStatus true)
      if room1.rematch.length = room1.players.length then
        let room2 := { room1 with
          puzzle := pickPuzzle (env.draws 0).idx, finished := false, ready := [],
          rematch := [], startAtMs := some (env.now + 1500) }
        ({ s with rooms := mapSet s.rooms roomId room2 },
          [waiting, Out.emit (Target.room roomId)
            (Msg.gameStart roomId room2.puzzle (env.now + 1500))])
      else ({ s with rooms := mapSet s.rooms roomId room1 }, [waiting])

/-- The assignment `room.players[idx] = id` at `idx = room.players.indexOf(old)`. -/
def replaceFirst : List ConnId → ConnId → ConnId → List ConnId
  | [], _, _ => []
  | p :: ps, old, id => if p = old then id :: ps else p :: replaceFirst ps old id

/-- The call `clearTimeout(handle)`. -/
def clearTimeout (timers : List Timer) (handle : Nat) : List Timer :=
  timers.filter fun t => t.id ≠ handle

/-- The handler of `resume:request`. -/
def onResume (s : State) (id : ConnId) (roomId : RoomId) (name : Option String) :
    State × List Out :=
  match mapGet s.rooms roomId with
  | none => (s, [])
  | some room =>
    match room.players.find? fun pid => mapHas room.gone pid with
    | none => (s, [])
    | some reclaimed =>
      let room1 := { room with
        players := replaceFirst room.players reclaimed id
        gone := mapDelete room.gone reclaimed
        dcTimer := none }
      let timers1 := match room.dcTimer with
        | some h => clearTimeout s.timers h
        | none => s.timers
      ({ s with
          rooms := mapSet s.rooms roomId room1
          timers := timers1
          players := mapSet s.players id
            { name := some (strOr name "Player"), roomId := some roomId, finding := some false } },
        [Out.join id roomId,
          Out.emit (Target.socket id) (Msg.resumeOk roomId room.startAtMs room.puzzle),
          Out.emit (Target.others roomId id) Msg.opponentReconnected])

/-- The handler of `disconnect`. -/
def onDisconnect (env : Env) (s : State) (id : ConnId) : State × List Out :=
  let q := s.queue.eraseP fun e => e.socketId = id
  let s1 := { s with queue := q }
  let r : State × List Out :=
    match mapGet s.players id with
    | none => (s1, [])
    | some m =>
      if truthy m.roomId then
        match mapGet s.rooms (m.roomId.getD "") with
        | none => (s1, [])
        | some room =>
          let timers1 := match room.dcTimer with
            | some h => clearTimeout s.timers h
            | none => s.timers
          let room1 := { room with
            gone := mapSet room.gone id env.now
            rematch := []
            dcTimer := some s.nextTimer }
          ({ s1 with
              rooms := mapSet s.rooms (m.roomId.getD "") room1
              timers := timers1 ++ [⟨s.nextTimer, m.roomId.getD "", id, env.now + GRACE_MS⟩]
              nextTimer := s.nextTimer + 1 },
            [Out.emit (Target.room (m.roomId.getD ""))
              (Msg.opponentDisconnected GRACE_MS)])
      else (s1, [])
  ({ r.1 with players := mapDelete r.1.players id }, r.2)

/-- The closure that the disconnect handler hands to `setTimeout`, run when
the pending timeout `handle` is due; a timeout that is not pending (never
armed, cleared, or already run) or not yet due does not run. -/
def onTimer (env : Env) (s : State) (handle : Nat) : State × List Out :=
  match s.timers.find? fun t => t.id = handle with
  | none => (s, [])
  | some t =>
    if env.now < t.fireAt then (s, [])
    else
      let s1 := { s with timers := clearTimeout s.timers handle }
      match mapGet s1.rooms t.roomId with
      | none => (s1, [])
      | some r =>
        if r.finished then (s1, [])
        else if mapHas r.gone t.socketId then
          ({ s1 with rooms := mapSet s1.rooms t.roomId { r with finished := true } },
            [Out.emit (Target.room t.roomId)
              (Msg.gameWin (r.players.find? fun p => p ≠ t.socketId)
                (elapsedMs env.now r.startAtMs))])
        else (s1, [])

/-- What can happen to the server: a connection, a client request, a
disconnect, a timeout coming due, or the housekeeping interval. -/
inductive Event where
  | connection (id : ConnId)
  | hello (id : ConnId) (name : Option String)
  | ping (id : ConnId)
  | matchFind (id : ConnId) (name : Option String)
  | matchCancel (id : ConnId)
  | gameReady (id : ConnId) (roomId : RoomId)
  | gameFinish (id : ConnId) (roomId : RoomId) (grid : Grid)
  | rematchRequest (id : ConnId) (roomId : RoomId)
  | resumeRequest (id : ConnId) (roomId : RoomId) (name : Option String)
  | disconnect (id : ConnId)
  | timerFire (handle : Nat)
  | sweep

/-- One indivisible step of the server. -/
def step (env : Env) (s : State) : Event → State × List Out
  | Event.connection id => onConnection s id
  | Event.hello id name => onHello s id name
  | Event.ping id => onPing env s id
  | Event.matchFind id name => onMatchFind env s id name
  | Event.matchCancel id => onMatchCancel s id
  | Event.gameReady id roomId => onGameReady env s id roomId
  | Event.gameFinish id roomId grid => onGameFinish env s id roomId grid
  | Event.rematchRequest id roomId => onRematchRequest env s id roomId
  | Event.resumeRequest id roomId name => onResume s id roomId name
  | Event.disconnect id => onDisconnect env s id
  | Event.timerFire handle => onTimer env s handle
  | Event.sweep => sweep env s

/-- The states the server can be in: the initial state, and every state one
step after a reachable state, whatever the clock, the liveness table and the
random draws are at that step. -/
inductive Reachable : State → Prop where
  | init : Reachable State.init
  | step (env : Env) (s : State) (e : Event) : Reachable s → Reachable (step env s e).1

/-- Spec side: the elapsed time of a win in the words of the spec, `now`
minus the start instant floored at zero, and zero when the start instant is
absent. -/
def specElapsed (now : Int) (startAtMs : Option Int) : Int :=
  match startAtMs with
  | some t => max 0 (now - t)
  | none => 0

/-! ## Invariants -/

/-- No connection identity occurs in two entries of the queue. -/
def QueueOk (s : State) : Prop := (s.queue.map QueueEntry.socketId).Nodup

/-- No room has the start instant 0 (which `||` would read as absent). -/
def StartOk (s : State) : Prop := ∀ e ∈ s.rooms, e.2.startAtMs ≠ some 0

/-- At rest the queue holds at most one entry: `tryMatch` runs after every
`queue.push` and its loop stops only below two entries. -/
def QueueShort (s : State) : Prop := s.queue.length ≤ 1

/-- A room entry is in order: its key is not the empty string, and its
rematch-set is empty while its gone-map is not. -/
def EntryOk (e : RoomId × Room) : Prop := e.1 ≠ "" ∧ (e.2.gone ≠ [] → e.2.rematch = [])

/-- Every room entry of the registry is in order. -/
def RoomsOk (s : State) : Prop := ∀ e ∈ s.rooms, EntryOk e

/-- No room identifier is the key of two entries of the registry. -/
def KeysOk (s : State) : Prop := (s.rooms.map Prod.fst).Nodup

/-- Every pending timeout has a handle that `setTimeout` has already given out. -/
def TimersOk (s : State) : Prop := ∀ t ∈ s.timers, t.id < s.nextTimer

/-- The events that need no client: a timeout coming due and the
housekeeping interval. -/
def isTimerOrSweep : Event → Bool
  | Event.timerFire _ => true
  | Event.sweep => true
  | _ => false

/-- Whether an output is a `game:win` broadcast to the given room. -/
def isWinFor (roomId : RoomId) : Out → Bool
  | Out.emit (Target.room r) (Msg.gameWin _ _) => r = roomId
  | _ => false

/-- The room is settled: the keys of the registry are distinct and the room,
if it is still in the registry, is finished. -/
def Settled (roomId : RoomId) (s : State) : Prop :=
  KeysOk s ∧ ∀ r, mapGet s.rooms roomId = some r → r.finished = true

/-! ## Sample data

Concrete environments, states and runs at which the theorems are instantiated. -/

/-- An environment at clock `now` in which every socket is connected and the
draw is the room tail `abc123` with puzzle index 0. -/
def sampleEnv (now : Nat) : Env := ⟨now, fun _ => true, fun _ => ⟨"abc123", 0⟩⟩

/-- The run of a list of events, each with the environment it meets; the
outputs are collected in order. -/
def run : State → List (Env × Event) → State × List Out
  | s, [] => (s, [])
  | s, (env, e) :: es =>
    let r := step env s e
    let r2 := run r.1 es
    (r2.1, r.2 ++ r2.2)

/-- A series of `game:ready` signals of one sender for one room, one per
environment of the list. -/
def readyRun (envs : List Env) (id : ConnId) (roomId : RoomId) : List (Env × Event) :=
  envs.map fun env => (env, Event.gameReady id roomId)

/-- A series of `game:rematch_request` signals of one sender for one room,
one per environment of the list. -/
def rematchRun (envs : List Env) (id : ConnId) (roomId : RoomId) : List (Env × Event) :=
  envs.map fun env => (env, Event.rematchRequest id roomId)

/-- Two clients `A` and `B` ask for a match at clock 1000. -/
def matchedRun : List (Env × Event) :=
  [(sampleEnv 1000, Event.connection "A"), (sampleEnv 1000, Event.connection "B"),
   (sampleEnv 1000, Event.matchFind "A" (some "Ann")),
   (sampleEnv 1000, Event.matchFind "B" (some "Bob"))]

/-- The state after `A` and `B` have been matched into `room_abc123`. -/
def matchedState : State := (run State.init matchedRun).1

/-- The state after both have signalled ready at clock 2000 (start at 3500). -/
def startedState : State :=
  (run matchedState [(sampleEnv 2000, Event.gameReady "A" "room_abc123"),
    (sampleEnv 2000, Event.gameReady "B" "room_abc123")]).1

/-- The state after `A` has finished with a solved grid at clock 9000. -/
def finishedState : State :=
  (step (sampleEnv 9000) startedState (Event.gameFinish "A" "room_abc123" solvedGrid)).1

/-- A grid that is not solved: the first puzzle of the catalogue. -/
def unsolvedGrid : Grid := pickPuzzle 0

/-- The state in which `match:find` of `B` calls `tryMatch`: `A` and `B` wait
in the queue, in this order. -/
def pairQueueState : State :=
  { rooms := [], queue := [⟨"A", "Ann"⟩, ⟨"B", "Bob"⟩],
    players := [("A", ⟨some "Ann", none, some true⟩), ("B", ⟨some "Bob", none, some true⟩)],
    timers := [], nextTimer := 0 }

/-- An environment in which the socket `D` is no longer connected. -/
def deadHeadEnv : Env := ⟨1000, fun id => id != "D", fun _ => ⟨"abc123", 0⟩⟩

/-- A state whose queue is `[D, A, B]`. -/
def deadHeadState : State :=
  { rooms := [], queue := [⟨"D", "Dan"⟩, ⟨"A", "Ann"⟩, ⟨"B", "Bob"⟩],
    players := [("D", ⟨some "Dan", none, some true⟩), ("A", ⟨some "Ann", none, some true⟩),
      ("B", ⟨some "Bob", none, some true⟩)],
    timers := [], nextTimer := 0 }

/-- The started sample room after `A` has disconnected at clock 10000. -/
def goneState : State := (step (sampleEnv 10000) startedState (Event.disconnect "A")).1

/-- The started sample room after `A` (clock 10000) and then `B` (clock 11000)
have disconnected. -/
def bothGoneState : State := (step (sampleEnv 11000) goneState (Event.disconnect "B")).1

/-- The matched sample room after `A` has signalled ready (clock 1500), has
disconnected (clock 2000), and a new connection `C` has resumed the room. -/
def resumedState : State :=
  (run matchedState [(sampleEnv 1500, Event.gameReady "A" "room_abc123"),
    (sampleEnv 2000, Event.disconnect "A"),
    (sampleEnv 3000, Event.resumeRequest "C" "room_abc123" (some "Ann"))]).1

/-- The started sample room after `A` and `B` have disconnected and a new
connection `C` has resumed the room at clock 12000. -/
def halfResumedState : State :=
  (step (sampleEnv 12000) bothGoneState (Event.resumeRequest "C" "room_abc123" (some "Ann"))).1

/-- An environment at clock `now` in which every socket is connected and the
draw is the room tail `xyz789` with puzzle index 1. -/
def sampleEnvX (now : Nat) : Env := ⟨now, fun _ => true, fun _ => ⟨"xyz789", 1⟩⟩

/-- The state in which `A` waits alone in the queue, `B` being connected. -/
def waitingState : State :=
  (run State.init [(sampleEnv 1000, Event.connection "A"),
    (sampleEnv 1000, Event.connection "B"),
    (sampleEnv 1000, Event.matchFind "A" (some "Ann"))]).1

/-- In the started sample room `A` disconnects at clock 10000 and `B` at clock
11000; nobody resumes; then the event loop comes to the timeout of `A`
(handle 0) at clock 18000 and to that of `B` (handle 1) at clock 19000. -/
def doubleGoneRun : List (Env × Event) :=
  [(sampleEnv 10000, Event.disconnect "A"), (sampleEnv 11000, Event.disconnect "B"),
   (sampleEnv 18000, Event.timerFire 0), (sampleEnv 19000, Event.timerFire 1)]

/-- In the finished sample room `A` asks for a rematch, then asks for a new
match and is paired with a newcomer `X` into `room_xyz789`, then disconnects. -/
def rematchedRun : List (Env × Event) :=
  [(sampleEnv 15000, Event.rematchRequest "A" "room_abc123"),
   (sampleEnvX 16000, Event.matchFind "A" none),
   (sampleEnvX 16500, Event.connection "X"),
   (sampleEnvX 17000, Event.matchFind "X" (some "Xia")),
   (sampleEnvX 18000, Event.disconnect "A")]

/-- The state after `rematchedRun`, from the finished sample room. -/
def rematchedState : State := (run finishedState rematchedRun).1

/-- In the started sample room `A` asks for a new match and is paired with a
newcomer `X` into `room_xyz789`; then `A` disconnects at clock 18000 and the
event loop comes to the timeout this arms (handle 0) at clock 26000. -/
def strayRun : List (Env × Event) :=
  [(sampleEnvX 16000, Event.matchFind "A" none),
   (sampleEnvX 16500, Event.connection "X"),
   (sampleEnvX 17000, Event.matchFind "X" (some "Xia")),
   (sampleEnvX 18000, Event.disconnect "A"),
   (sampleEnvX 26000, Event.timerFire 0)]

/-! ## Theorems: solved-state checker -/

theorem toDigitsCore_length_ge (b : Nat) :
    ∀ (f n : Nat) (l : List Char), l.length ≤ (Nat.toDigitsCore b f n l).length := by
  intro f
  induction f with
  | zero => intro n l; simp [Nat.toDigitsCore]
  | succ f ih =>
    intro n l
    simp only [Nat.toDigitsCore]
    split
    · simp
    · exact le_trans (by simp) (ih _ _)

theorem toDigits_length_pos (n : Nat) : 1 ≤ (Nat.toDigits 10 n).length := by
  unfold Nat.toDigits
  simp only [Nat.toDigitsCore]
  split
  · simp
  · exact le_trans (by simp) (toDigitsCore_length_ge 10 _ _ _)

theorem toDigits_length_two (n : Nat) (h : 10 ≤ n) : 2 ≤ (Nat.toDigits 10 n).length := by
  unfold Nat.toDigits
  obtain ⟨m, rfl⟩ : ∃ m, n = m + 1 := ⟨n - 1, by omega⟩
  simp only [Nat.toDigitsCore]
  have h1 : ¬ ((m + 1) / 10 = 0) := by omega
  rw [if_neg h1]
  split
  · simp
  · exact le_trans (by simp) (toDigitsCore_length_ge 10 _ _ _)

theorem jsToString_length_pos (x : Int) : 1 ≤ (jsToString x).length := by
  unfold jsToString
  split
  · simp
  · exact toDigits_length_pos _

theorem jsToString_ne_nil (x : Int) : jsToString x ≠ [] := by
  intro h
  have := jsToString_length_pos x
  rw [h] at this
  simp at this

theorem jsToString_length_one (x : Int) (h : (jsToString x).length = 1) : 0 ≤ x ∧ x ≤ 9 := by
  unfold jsToString at h
  split at h
  · have := toDigits_length_pos x.natAbs
    simp only [List.length_cons] at h
    omega
  · rename_i hx
    refine ⟨by omega, ?_⟩
    by_contra hc
    have := toDigits_length_two x.toNat (by omega)
    omega

theorem jsToString_eq_digit (x d : Int) (hd0 : 0 ≤ d) (hd9 : d ≤ 9)
    (h : jsToString x = jsToString d) : x = d := by
  have hl : (jsToString d).length = 1 := by
    interval_cases d <;> decide
  have hx := jsToString_length_one x (by rw [h]; exact hl)
  obtain ⟨hx0, hx9⟩ := hx
  interval_cases x <;> interval_cases d <;> first | rfl | (exact absurd h (by decide))

theorem map_jsToString_eq_digits :
    ∀ (l ds : List Int), (∀ d ∈ ds, 0 ≤ d ∧ d ≤ 9) →
      l.map jsToString = ds.map jsToString → l = ds := by
  intro l
  induction l with
  | nil =>
    intro ds _ h
    cases ds with
    | nil => rfl
    | cons d ds => simp at h
  | cons x l ih =>
    intro ds hds h
    cases ds with
    | nil => simp at h
    | cons d ds =>
      simp only [List.map_cons, List.cons.injEq] at h
      have hd := hds d (List.mem_cons_self _ _)
      rw [jsToString_eq_digit x d hd.1 hd.2 h.1,
        ih ds (fun e he => hds e (List.mem_cons_of_mem _ he)) h.2]

theorem length_le_length_flatten (l : List (List Char)) (hne : ∀ s ∈ l, s ≠ []) :
    l.length ≤ l.flatten.length := by
  induction l with
  | nil => simp
  | cons s t ih =>
    have hs : s ≠ [] := hne s (List.mem_cons_self _ _)
    have h1 : 1 ≤ s.length := List.length_pos.mpr hs
    have := ih (fun u hu => hne u (List.mem_cons_of_mem _ hu))
    simp only [List.flatten_cons, List.length_append, List.length_cons]
    omega

/-- A concatenation of as many non-empty pieces as it has characters consists
of one-character pieces. -/
theorem flatten_eq_singletons :
    ∀ (l : List (List Char)) (w : List Char), (∀ s ∈ l, s ≠ []) →
      l.flatten = w → l.length = w.length → l = w.map fun c => [c] := by
  intro l
  induction l with
  | nil =>
    intro w _ _ hlen
    cases w with
    | nil => rfl
    | cons c w => simp at hlen
  | cons s t ih =>
    intro w hne hw hlen
    have hs : s ≠ [] := hne s (List.mem_cons_self _ _)
    have hne' : ∀ u ∈ t, u ≠ [] := fun u hu => hne u (List.mem_cons_of_mem _ hu)
    have ht := length_le_length_flatten t hne'
    have hsl : 1 ≤ s.length := List.length_pos.mpr hs
    have hwl : s.length + t.flatten.length = w.length := by
      rw [← hw]; simp
    simp only [List.length_cons] at hlen
    have hs1 : s.length = 1 := by omega
    obtain ⟨c, rfl⟩ := List.length_eq_one.mp hs1
    cases w with
    | nil => simp at hw
    | cons c2 w =>
      simp only [List.flatten_cons, List.singleton_append, List.cons.injEq] at hw
      obtain ⟨rfl, hw⟩ := hw
      simp only [List.length_cons] at hlen
      rw [List.map_cons, ih w hne' hw (by omega)]

/-- The digits `[1, ..., 9]`. -/
theorem digits_bounds : ∀ d ∈ ([1, 2, 3, 4, 5, 6, 7, 8, 9] : List Int), 0 ≤ d ∧ d ≤ 9 := by
  decide

theorem unitOk_perm (l : List Int) (hlen : l.length = 9) (h : unitOk l = true) :
    l.Perm [1, 2, 3, 4, 5, 6, 7, 8, 9] := by
  have hp : (jsSort l).Perm l := List.perm_insertionSort _ l
  have hj : ((jsSort l).map jsToString).flatten = want := by
    simpa [unitOk, jsJoin] using h
  have hs := flatten_eq_singletons ((jsSort l).map jsToString) want
    (by
      intro s hs
      obtain ⟨x, _, rfl⟩ := List.mem_map.mp hs
      exact jsToString_ne_nil x)
    hj (by rw [List.length_map, hp.length_eq, hlen]; rfl)
  have hd : jsSort l = [1, 2, 3, 4, 5, 6, 7, 8, 9] :=
    map_jsToString_eq_digits _ _ digits_bounds (by rw [hs]; decide)
  rw [← hd]
  exact hp.symm

theorem perm_unitOk (l : List Int) (h : l.Perm [1, 2, 3, 4, 5, 6, 7, 8, 9]) :
    unitOk l = true := by
  have hmap : (jsSort l).map jsToString
      = List.insertionSort (· ≤ ·) (l.map jsToString) :=
    List.map_insertionSort jsSortLe (· ≤ ·) jsToString l (fun a _ b _ => Iff.rfl)
  have hperm : (List.insertionSort (· ≤ ·) (l.map jsToString)).Perm
      (([1, 2, 3, 4, 5, 6, 7, 8, 9] : List Int).map jsToString) :=
    (List.perm_insertionSort _ _).trans (h.map jsToString)
  have hsorted : List.Sorted (· ≤ ·) (([1, 2, 3, 4, 5, 6, 7, 8, 9] : List Int).map jsToString) := by
    decide
  have heq := List.eq_of_perm_of_sorted hperm (List.sorted_insertionSort _ _) hsorted
  simp only [unitOk, jsJoin, decide_eq_true_eq]
  rw [hmap, heq]
  decide

theorem perm_digits_iff (l : List Int) (hlen : l.length = 9) :
    l.Perm [1, 2, 3, 4, 5, 6, 7, 8, 9] ↔ ∀ d : Int, 1 ≤ d → d ≤ 9 → l.count d = 1 := by
  constructor
  · intro h d h1 h9
    rw [h.count_eq]
    interval_cases d <;> decide
  · intro h
    have hsub : ([1, 2, 3, 4, 5, 6, 7, 8, 9] : List Int).Subperm l := by
      apply List.subperm_of_subset (by decide)
      intro d hd
      have hb : 1 ≤ d ∧ d ≤ 9 := by
        simp only [List.mem_cons, List.mem_singleton, List.not_mem_nil, or_false] at hd
        omega
      exact List.count_pos_iff.mp (by rw [h d hb.1 hb.2]; exact Nat.one_pos)
    exact (hsub.perm_of_length_le (by rw [hlen]; rfl)).symm

theorem entry?_eq_cell (grid : Grid) (hlen : grid.length = 9)
    (hrows : ∀ row ∈ grid, row.length = 9) (r c : Nat) (hr : r < 9) (hc : c < 9) :
    entry? grid r c = some (cell grid r c) := by
  have hr2 : r < grid.length := by omega
  have hrow : (grid[r]).length = 9 := hrows _ (List.getElem_mem _)
  have hc2 : c < (grid[r]).length := by omega
  simp [entry?, cell, List.getD_eq_getElem?_getD, List.get?_eq_getElem?,
    List.getElem?_eq_getElem hr2, List.getElem?_eq_getElem hc2]

theorem filter_entry_length (grid : Grid) (d : Int) :
    ∀ ps : List (Nat × Nat),
      (∀ p ∈ ps, entry? grid p.1 p.2 = some (cell grid p.1 p.2)) →
      (ps.filter fun p => entry? grid p.1 p.2 = some d).length
        = (ps.map fun p => cell grid p.1 p.2).count d := by
  intro ps
  induction ps with
  | nil => intro _; rfl
  | cons p ps ih =>
    intro h
    have hp := h p (List.mem_cons_self _ _)
    have ih2 := ih (fun q hq => h q (List.mem_cons_of_mem _ hq))
    simp only [List.filter_cons, List.map_cons, List.count_cons, hp, Option.some.injEq,
      beq_iff_eq]
    by_cases hd : cell grid p.1 p.2 = d
    · simp [hd, ih2]
    · simp [hd, ih2]

/-- On a 9x9 grid, the check of one unit (given by nine positions) succeeds
exactly when each digit 1..9 stands at exactly one of the positions. -/
theorem unitOk_iff_occursOnce (grid : Grid) (hlen : grid.length = 9)
    (hrows : ∀ row ∈ grid, row.length = 9) (ps : List (Nat × Nat)) (hps : ps.length = 9)
    (hin : ∀ p ∈ ps, p.1 < 9 ∧ p.2 < 9) :
    unitOk (ps.map fun p => cell grid p.1 p.2) = true
      ↔ ∀ d : Int, 1 ≤ d → d ≤ 9 → occursOnce grid ps d := by
  have hent : ∀ p ∈ ps, entry? grid p.1 p.2 = some (cell grid p.1 p.2) :=
    fun p hp => entry?_eq_cell grid hlen hrows p.1 p.2 (hin p hp).1 (hin p hp).2
  have hl : (ps.map fun p => cell grid p.1 p.2).length = 9 := by simp [hps]
  have hocc : ∀ d, occursOnce grid ps d ↔ (ps.map fun p => cell grid p.1 p.2).count d = 1 := by
    intro d
    unfold occursOnce
    rw [filter_entry_length grid d ps hent]
  constructor
  · intro h d h1 h9
    exact (hocc d).mpr ((perm_digits_iff _ hl).mp (unitOk_perm _ hl h) d h1 h9)
  · intro h
    exact perm_unitOk _ ((perm_digits_iff _ hl).mpr fun d h1 h9 => (hocc d).mp (h d h1 h9))

theorem list_eq_map_getD (l : List Int) (h : l.length = 9) :
    l = (List.range 9).map fun c => l.getD c 0 := by
  apply List.ext_getElem
  · simp [h]
  · intro n h1 h2
    simp [List.getD_eq_getElem?_getD, List.getElem?_eq_getElem h1]

theorem row_eq_map_cell (grid : Grid) (r : Nat) (h : (grid.getD r []).length = 9) :
    grid.getD r [] = (rowPositions r).map fun p => cell grid p.1 p.2 := by
  have h2 : (rowPositions r).map (fun p => cell grid p.1 p.2)
      = (List.range 9).map fun c => (grid.getD r []).getD c 0 := by
    simp only [rowPositions, List.map_map, Function.comp_def, cell]
  rw [h2]
  exact list_eq_map_getD _ h

theorem colOf_eq_map_cell (grid : Grid) (c : Nat) :
    colOf grid c = (colPositions c).map fun p => cell grid p.1 p.2 := by
  simp [colOf, colPositions, List.map_map, Function.comp_def]

theorem boxOf_eq_map_cell (grid : Grid) (br bc : Nat) :
    boxOf grid br bc = (boxPositions br bc).map fun p => cell grid p.1 p.2 := by
  simp [boxOf, boxPositions, List.range_succ, Nat.mul_comm]

theorem mem_grid_iff (grid : Grid) (hlen : grid.length = 9) (row : List Int) :
    row ∈ grid ↔ ∃ r, r < 9 ∧ row = grid.getD r [] := by
  constructor
  · intro h
    obtain ⟨n, hn, rfl⟩ := List.getElem_of_mem h
    exact ⟨n, by omega, by simp [List.getD_eq_getElem?_getD, List.getElem?_eq_getElem hn]⟩
  · rintro ⟨r, hr, rfl⟩
    have hr2 : r < grid.length := by omega
    simp [List.getD_eq_getElem?_getD, List.getElem?_eq_getElem hr2]

/-- The body of `isSolved`, read as a conjunction of its tests. -/
theorem isSolved_iff_tests (grid : Grid) :
    isSolved grid = true ↔
      grid.length = 9 ∧
      (∀ r < 9, (grid.getD r []).length = 9 ∧ unitOk (grid.getD r []) = true) ∧
      (∀ c < 9, unitOk (colOf grid c) = true) ∧
      (∀ br < 3, ∀ bc < 3, unitOk (boxOf grid br bc) = true) := by
  unfold isSolved
  generalize hA : ((List.range 9).all fun r =>
      decide ((grid.getD r []).length = 9) && unitOk (grid.getD r [])) = A
  generalize hB : ((List.range 9).all fun c => unitOk (colOf grid c)) = B
  generalize hC : ((List.range 3).all fun br =>
      (List.range 3).all fun bc => unitOk (boxOf grid br bc)) = C
  have hA2 : A = true ↔
      ∀ r < 9, (grid.getD r []).length = 9 ∧ unitOk (grid.getD r []) = true := by
    rw [← hA]; simp [List.all_eq_true]
  have hB2 : B = true ↔ ∀ c < 9, unitOk (colOf grid c) = true := by
    rw [← hB]; simp [List.all_eq_true]
  have hC2 : C = true ↔ ∀ br < 3, ∀ bc < 3, unitOk (boxOf grid br bc) = true := by
    rw [← hC]; simp [List.all_eq_true]
  rw [← hA2, ← hB2, ← hC2]
  by_cases h1 : grid.length = 9 <;> cases A <;> cases B <;> cases C <;> simp [h1]

theorem rowPositions_spec (r : Nat) (hr : r < 9) :
    (rowPositions r).length = 9 ∧ ∀ p ∈ rowPositions r, p.1 < 9 ∧ p.2 < 9 := by
  refine ⟨by simp [rowPositions], ?_⟩
  intro p hp
  simp only [rowPositions, List.mem_map, List.mem_range] at hp
  obtain ⟨c, hc, rfl⟩ := hp
  exact ⟨hr, hc⟩

theorem colPositions_spec (c : Nat) (hc : c < 9) :
    (colPositions c).length = 9 ∧ ∀ p ∈ colPositions c, p.1 < 9 ∧ p.2 < 9 := by
  refine ⟨by simp [colPositions], ?_⟩
  intro p hp
  simp only [colPositions, List.mem_map, List.mem_range] at hp
  obtain ⟨r, hr, rfl⟩ := hp
  exact ⟨hr, hc⟩

theorem boxPositions_spec (i j : Nat) (hi : i < 3) (hj : j < 3) :
    (boxPositions i j).length = 9 ∧ ∀ p ∈ boxPositions i j, p.1 < 9 ∧ p.2 < 9 := by
  refine ⟨by simp [boxPositions], ?_⟩
  intro p hp
  simp only [boxPositions, List.mem_cons, List.mem_singleton, List.not_mem_nil, or_false] at hp
  rcases hp with h | h | h | h | h | h | h | h | h <;> subst h <;> constructor <;> simp <;> omega

theorem mem_allUnits (ps : List (Nat × Nat)) (h : ps ∈ allUnits) :
    (∃ r, r < 9 ∧ ps = rowPositions r) ∨ (∃ c, c < 9 ∧ ps = colPositions c) ∨
      ∃ i j, i < 3 ∧ j < 3 ∧ ps = boxPositions i j := by
  simp only [allUnits, List.mem_append, List.mem_map, List.mem_range, List.mem_flatten] at h
  rcases h with (⟨r, hr, rfl⟩ | ⟨c, hc, rfl⟩) | ⟨l, ⟨i, hi, rfl⟩, hl⟩
  · exact Or.inl ⟨r, hr, rfl⟩
  · exact Or.inr (Or.inl ⟨c, hc, rfl⟩)
  · simp only [List.mem_map, List.mem_range] at hl
    obtain ⟨j, hj, rfl⟩ := hl
    exact Or.inr (Or.inr ⟨i, j, hi, hj, rfl⟩)

theorem isSolved_iff_SpecSolved (grid : Grid) : isSolved grid = true ↔ SpecSolved grid := by
  rw [isSolved_iff_tests]
  constructor
  · rintro ⟨hlen, hrow, hcol, hbox⟩
    have hrows : ∀ row ∈ grid, row.length = 9 := by
      intro row hmem
      obtain ⟨r, hr, rfl⟩ := (mem_grid_iff grid hlen row).mp hmem
      exact (hrow r hr).1
    refine ⟨hlen, hrows, ?_⟩
    intro d h1 h9
    refine ⟨?_, ?_, ?_⟩
    · intro r hr
      have hs := rowPositions_spec r hr
      refine (unitOk_iff_occursOnce grid hlen hrows _ hs.1 hs.2).mp ?_ d h1 h9
      rw [← row_eq_map_cell grid r (hrow r hr).1]
      exact (hrow r hr).2
    · intro c hc
      have hs := colPositions_spec c hc
      refine (unitOk_iff_occursOnce grid hlen hrows _ hs.1 hs.2).mp ?_ d h1 h9
      rw [← colOf_eq_map_cell]
      exact hcol c hc
    · intro i hi j hj
      have hs := boxPositions_spec i j hi hj
      refine (unitOk_iff_occursOnce grid hlen hrows _ hs.1 hs.2).mp ?_ d h1 h9
      rw [← boxOf_eq_map_cell]
      exact hbox i hi j hj
  · rintro ⟨hlen, hrows, hd⟩
    refine ⟨hlen, ?_, ?_, ?_⟩
    · intro r hr
      have hl : (grid.getD r []).length = 9 :=
        hrows _ ((mem_grid_iff grid hlen _).mpr ⟨r, hr, rfl⟩)
      refine ⟨hl, ?_⟩
      have hs := rowPositions_spec r hr
      rw [row_eq_map_cell grid r hl]
      exact (unitOk_iff_occursOnce grid hlen hrows _ hs.1 hs.2).mpr
        fun d h1 h9 => (hd d h1 h9).1 r hr
    · intro c hc
      have hs := colPositions_spec c hc
      rw [colOf_eq_map_cell]
      exact (unitOk_iff_occursOnce grid hlen hrows _ hs.1 hs.2).mpr
        fun d h1 h9 => (hd d h1 h9).2.1 c hc
    · intro i hi j hj
      have hs := boxPositions_spec i j hi hj
      rw [boxOf_eq_map_cell]
      exact (unitOk_iff_occursOnce grid hlen hrows _ hs.1 hs.2).mpr
        fun d h1 h9 => (hd d h1 h9).2.2 i hi j hj

/-- A value that stands at two positions of a unit makes the check fail. -/
theorem isSolved_repeated (grid : Grid) (ps : List (Nat × Nat)) (hps : ps ∈ allUnits)
    (v : Int) (hv : 2 ≤ (ps.filter fun p => entry? grid p.1 p.2 = some v).length) :
    isSolved grid = false := by
  by_contra hne
  have hsol : isSolved grid = true := by simpa using hne
  obtain ⟨hlen, hrow, hcol, hbox⟩ := (isSolved_iff_tests grid).mp hsol
  have hrows : ∀ row ∈ grid, row.length = 9 := by
    intro row hmem
    obtain ⟨r, hr, rfl⟩ := (mem_grid_iff grid hlen row).mp hmem
    exact (hrow r hr).1
  have key : ps.length = 9 ∧ (∀ p ∈ ps, p.1 < 9 ∧ p.2 < 9) ∧
      unitOk (ps.map fun p => cell grid p.1 p.2) = true := by
    rcases mem_allUnits ps hps with ⟨r, hr, rfl⟩ | ⟨c, hc, rfl⟩ | ⟨i, j, hi, hj, rfl⟩
    · have hs := rowPositions_spec r hr
      refine ⟨hs.1, hs.2, ?_⟩
      rw [← row_eq_map_cell grid r (hrow r hr).1]
      exact (hrow r hr).2
    · have hs := colPositions_spec c hc
      refine ⟨hs.1, hs.2, ?_⟩
      rw [← colOf_eq_map_cell]
      exact hcol c hc
    · have hs := boxPositions_spec i j hi hj
      refine ⟨hs.1, hs.2, ?_⟩
      rw [← boxOf_eq_map_cell]
      exact hbox i hi j hj
  obtain ⟨hl, hin, hok⟩ := key
  have hperm := unitOk_perm _ (by simp [hl]) hok
  have hnd : (ps.map fun p => cell grid p.1 p.2).Nodup :=
    hperm.nodup_iff.mpr (by decide)
  have hc1 := List.nodup_iff_count_le_one.mp hnd v
  rw [filter_entry_length grid v ps
    (fun p hp => entry?_eq_cell grid hlen hrows p.1 p.2 (hin p hp).1 (hin p hp).2)] at hv
  omega

/-- C1: for every grid given as rows of integers, `isSolved` returns true
exactly when the grid has 9 rows of 9 cells and every row, column and 3x3 box
holds each digit 1..9 exactly once; a grid that is not 9x9 is rejected, and so
is a grid in which some value stands twice in a row, a column or a box. -/
theorem isSolved_correct (grid : Grid) :
    (isSolved grid = true ↔ SpecSolved grid) ∧
    ((grid.length ≠ 9 ∨ ∃ row ∈ grid, row.length ≠ 9) → isSolved grid = false) ∧
    (∀ ps ∈ allUnits, ∀ v : Int,
      2 ≤ (ps.filter fun p => entry? grid p.1 p.2 = some v).length →
        isSolved grid = false) := by
  refine ⟨isSolved_iff_SpecSolved grid, ?_, fun ps hps v hv => isSolved_repeated grid ps hps v hv⟩
  intro h
  by_contra hne
  have hsol : isSolved grid = true := by simpa using hne
  obtain ⟨hlen, hrows, _⟩ := (isSolved_iff_SpecSolved grid).mp hsol
  rcases h with h | ⟨row, hmem, hrow⟩
  · exact h hlen
  · exact hrow (hrows row hmem)

set_option maxRecDepth 100000 in
/-- C1 at a solved grid: the checker accepts it and the specification holds. -/
theorem isSolved_correct_witness : isSolved solvedGrid = true ∧ SpecSolved solvedGrid :=
  ⟨by decide, (isSolved_correct solvedGrid).1.mp (by decide)⟩

/-! ## Theorems: maps and sets -/

theorem mapGet_mapSet_self {α : Type} (m : List (String × α)) (k : String) (v : α) :
    mapGet (mapSet m k v) k = some v := by
  induction m with
  | nil => simp [mapSet, mapGet]
  | cons e m ih =>
    obtain ⟨k2, w⟩ := e
    by_cases h : k2 = k
    · simp [mapSet, mapGet, h]
    · simp [mapSet, mapGet, h, ih]

theorem mapGet_mapSet_ne {α : Type} (m : List (String × α)) (k k2 : String) (v : α)
    (h : k2 ≠ k) : mapGet (mapSet m k v) k2 = mapGet m k2 := by
  induction m with
  | nil => simp [mapSet, mapGet, Ne.symm h]
  | cons e m ih =>
    obtain ⟨k3, w⟩ := e
    by_cases h3 : k3 = k
    · subst h3
      simp [mapSet, mapGet, Ne.symm h]
    · by_cases h4 : k3 = k2
      · subst h4
        simp [mapSet, mapGet, h3]
      · simp [mapSet, mapGet, h3, h4, ih]

theorem mapSet_eq_self {α : Type} (m : List (String × α)) (k : String) (v : α)
    (h : mapGet m k = some v) : mapSet m k v = m := by
  induction m with
  | nil => simp [mapGet] at h
  | cons e m ih =>
    obtain ⟨k2, w⟩ := e
    by_cases h2 : k2 = k
    · subst h2
      simp only [mapGet, if_true, Option.some.injEq] at h
      simp [mapSet, h]
    · simp only [mapGet, if_neg h2] at h
      simp [mapSet, h2, ih h]

theorem mem_mapSet {α : Type} (m : List (String × α)) (k : String) (v : α) (e : String × α)
    (h : e ∈ mapSet m k v) : e ∈ m ∨ e = (k, v) := by
  induction m with
  | nil => simpa [mapSet] using h
  | cons e2 m ih =>
    obtain ⟨k2, w⟩ := e2
    by_cases h2 : k2 = k
    · simp only [mapSet, if_pos h2, List.mem_cons] at h
      rcases h with h | h
      · exact Or.inr h
      · exact Or.inl (List.mem_cons_of_mem _ h)
    · simp only [mapSet, if_neg h2, List.mem_cons] at h
      rcases h with h | h
      · exact Or.inl (by rw [h]; exact List.mem_cons_self _ _)
      · rcases ih h with h3 | h3
        · exact Or.inl (List.mem_cons_of_mem _ h3)
        · exact Or.inr h3

/-! ## Theorems: `game:finish` -/

theorem elapsedMs_nonneg (now : Int) (start : Option Int) : 0 ≤ elapsedMs now start := by
  unfold elapsedMs
  exact le_max_left _ _

theorem elapsedMs_eq (now : Int) (start : Option Int) (h : start ≠ some 0) :
    elapsedMs now start = specElapsed now start := by
  unfold elapsedMs numOr specElapsed
  cases start with
  | none => simp
  | some t =>
    have ht : t ≠ 0 := fun h0 => h (by rw [h0])
    simp [ht]

/-- What `game:finish` does with a solved grid from a participant of an
unfinished room. -/
theorem onGameFinish_solved (env : Env) (s : State) (id : ConnId) (roomId : RoomId)
    (grid : Grid) (room : Room) (hroom : mapGet s.rooms roomId = some room)
    (hfin : room.finished = false) (hmem : id ∈ room.players)
    (hsolved : isSolved grid = true) :
    onGameFinish env s id roomId grid =
      ({ s with rooms := mapSet s.rooms roomId { room with finished := true } },
        [Out.emit (Target.room roomId)
          (Msg.gameWin (some id) (elapsedMs env.now room.startAtMs))]) := by
  simp [onGameFinish, hroom, hfin, hmem, hsolved]

/-- What `game:finish` does when its guard fails. -/
theorem onGameFinish_ignored (env : Env) (s : State) (id : ConnId) (roomId : RoomId)
    (grid : Grid)
    (h : mapGet s.rooms roomId = none ∨
      ∃ room, mapGet s.rooms roomId = some room ∧ (room.finished = true ∨ id ∉ room.players)) :
    onGameFinish env s id roomId grid = (s, []) := by
  rcases h with h | ⟨room, hroom, h⟩
  · simp [onGameFinish, h]
  · rcases h with h | h
    · simp [onGameFinish, hroom, h]
    · simp [onGameFinish, hroom, h]

/-- C3: a grid that `isSolved` rejects, sent as `game:finish` by a participant
of a known unfinished room, leaves the whole state as it was and produces the
single event `game:finish_rejected`, addressed to the submitter alone; a later
solved grid from the same submitter still wins the room. -/
theorem gameFinish_rejected (env : Env) (s : State) (id : ConnId) (roomId : RoomId)
    (grid : Grid) (room : Room) (hroom : mapGet s.rooms roomId = some room)
    (hfin : room.finished = false) (hmem : id ∈ room.players)
    (hrej : isSolved grid = false) :
    onGameFinish env s id roomId grid
      = (s, [Out.emit (Target.socket id) Msg.finishRejected]) ∧
    ∀ (env2 : Env) (grid2 : Grid), isSolved grid2 = true →
      onGameFinish env2 (onGameFinish env s id roomId grid).1 id roomId grid2 =
        ({ s with rooms := mapSet s.rooms roomId { room with finished := true } },
          [Out.emit (Target.room roomId)
            (Msg.gameWin (some id) (elapsedMs env2.now room.startAtMs))]) := by
  have h1 : onGameFinish env s id roomId grid
      = (s, [Out.emit (Target.socket id) Msg.finishRejected]) := by
    simp [onGameFinish, hroom, hfin, hmem, hrej]
  refine ⟨h1, ?_⟩
  intro env2 grid2 h2
  rw [h1]
  exact onGameFinish_solved env2 s id roomId grid2 room hroom hfin hmem h2

/-- C3 at the started sample room: `A` first submits the unsolved puzzle. -/
theorem gameFinish_rejected_witness :
    onGameFinish (sampleEnv 5000) startedState "A" "room_abc123" unsolvedGrid
      = (startedState, [Out.emit (Target.socket "A") Msg.finishRejected]) ∧
    ∀ (env2 : Env) (grid2 : Grid), isSolved grid2 = true →
      onGameFinish env2
          (onGameFinish (sampleEnv 5000) startedState "A" "room_abc123" unsolvedGrid).1
          "A" "room_abc123" grid2 =
        ({ startedState with
            rooms := mapSet startedState.rooms "room_abc123"
              { (newRoom "A" "B" (pickPuzzle 0)) with
                startAtMs := some 3500, ready := ["A", "B"], finished := true } },
          [Out.emit (Target.room "room_abc123")
            (Msg.gameWin (some "A") (elapsedMs env2.now (some 3500)))]) :=
  gameFinish_rejected (sampleEnv 5000) startedState "A" "room_abc123" unsolvedGrid
    { (newRoom "A" "B" (pickPuzzle 0)) with startAtMs := some 3500, ready := ["A", "B"] }
    (by decide) (by decide) (by decide) (by decide)

/-- C4: `game:finish` for a room that is unknown, or already finished, or of
which the sender is not a slot, leaves the whole state as it was and emits
nothing, whatever the grid; so once a solved grid has finished a room, every
further `game:finish` for that room, from anyone and with any grid, changes
nothing and emits nothing (no second `game:win`). -/
theorem gameFinish_ignored (env : Env) (s : State) (id : ConnId) (roomId : RoomId)
    (grid : Grid) :
    ((mapGet s.rooms roomId = none ∨
        ∃ room, mapGet s.rooms roomId = some room ∧
          (room.finished = true ∨ id ∉ room.players)) →
      onGameFinish env s id roomId grid = (s, [])) ∧
    (∀ room, mapGet s.rooms roomId = some room → room.finished = false →
      id ∈ room.players → isSolved grid = true →
      ∀ (env2 : Env) (id2 : ConnId) (grid2 : Grid),
        onGameFinish env2 (onGameFinish env s id roomId grid).1 id2 roomId grid2
          = ((onGameFinish env s id roomId grid).1, [])) := by
  refine ⟨onGameFinish_ignored env s id roomId grid, ?_⟩
  intro room hroom hfin hmem hsolved env2 id2 grid2
  rw [onGameFinish_solved env s id roomId grid room hroom hfin hmem hsolved]
  apply onGameFinish_ignored
  exact Or.inr ⟨{ room with finished := true }, mapGet_mapSet_self _ _ _, Or.inl rfl⟩

/-- C4 at the sample rooms: a stranger `C` is ignored in the started room, and
after `A` has won, a solved grid from `B` is ignored. -/
theorem gameFinish_ignored_witness :
    onGameFinish (sampleEnv 5000) startedState "C" "room_abc123" solvedGrid
      = (startedState, []) ∧
    onGameFinish (sampleEnv 9500)
        (onGameFinish (sampleEnv 9000) startedState "A" "room_abc123" solvedGrid).1
        "B" "room_abc123" solvedGrid
      = ((onGameFinish (sampleEnv 9000) startedState "A" "room_abc123" solvedGrid).1, []) :=
  ⟨(gameFinish_ignored (sampleEnv 5000) startedState "C" "room_abc123" solvedGrid).1
      (Or.inr ⟨{ (newRoom "A" "B" (pickPuzzle 0)) with
          startAtMs := some 3500, ready := ["A", "B"] }, by decide, Or.inr (by decide)⟩),
    (gameFinish_ignored (sampleEnv 9000) startedState "A" "room_abc123" solvedGrid).2
      { (newRoom "A" "B" (pickPuzzle 0)) with startAtMs := some 3500, ready := ["A", "B"] }
      (by decide) (by decide) (by decide) (by decide) (sampleEnv 9500) "B" solvedGrid⟩

/-! ## Theorems: `game:ready` -/

/-- C5, the code at a finished room: in the sample room that `A` has won
(finished, start instant 3500), a `game:ready` from `A` at clock 20000 is not
ignored: the start instant becomes 21500 and a `game:start` is broadcast. -/
theorem gameReady_finished_room :
    (mapGet finishedState.rooms "room_abc123").map (fun r => (r.finished, r.startAtMs))
      = some (true, some 3500) ∧
    (onGameReady (sampleEnv 20000) finishedState "A" "room_abc123").2
      = [Out.emit (Target.room "room_abc123")
          (Msg.gameStart "room_abc123" (pickPuzzle 0) 21500)] ∧
    (mapGet (onGameReady (sampleEnv 20000) finishedState "A" "room_abc123").1.rooms
        "room_abc123").map (fun r => (r.finished, r.startAtMs))
      = some (true, some 21500) := by
  decide

theorem mapSet_mapSet {α : Type} (m : List (String × α)) (k : String) (v w : α) :
    mapSet (mapSet m k v) k w = mapSet m k w := by
  induction m with
  | nil => simp [mapSet]
  | cons e m ih =>
    obtain ⟨k2, u⟩ := e
    by_cases h : k2 = k
    · simp [mapSet, h]
    · simp [mapSet, h, ih]

/-- A `game:ready` of a participant that does not complete the ready-set. -/
theorem onGameReady_waiting (env : Env) (s : State) (id : ConnId) (roomId : RoomId)
    (room : Room) (hroom : mapGet s.rooms roomId = some room) (hmem : id ∈ room.players)
    (hlen : (setAdd room.ready id).length ≠ room.players.length) :
    onGameReady env s id roomId =
      ({ s with rooms := mapSet s.rooms roomId { room with ready := setAdd room.ready id } },
        []) := by
  simp [onGameReady, hroom, hmem, hlen]

/-- A `game:ready` of a participant that completes the ready-set. -/
theorem onGameReady_start (env : Env) (s : State) (id : ConnId) (roomId : RoomId)
    (room : Room) (hroom : mapGet s.rooms roomId = some room) (hmem : id ∈ room.players)
    (hlen : (setAdd room.ready id).length = room.players.length) :
    onGameReady env s id roomId =
      ({ s with
          rooms := mapSet s.rooms roomId
            { room with ready := setAdd room.ready id, startAtMs := some ((env.now : Int) + 1500) } },
        [Out.emit (Target.room roomId)
          (Msg.gameStart roomId room.puzzle ((env.now : Int) + 1500))]) := by
  simp [onGameReady, hroom, hmem, hlen]

theorem run_readyRun (s : State) (roomId : RoomId) (a b : ConnId) (puzzle : Grid)
    (hne : a ≠ b) (p : ConnId) (hp : p = a ∨ p = b) :
    ∀ (envs : List Env) (r : List ConnId), (r = [] ∨ r = [p]) →
      run { s with rooms := mapSet s.rooms roomId { newRoom a b puzzle with ready := r } }
          (readyRun envs p roomId)
        = ({ s with
              rooms := mapSet s.rooms roomId
                { newRoom a b puzzle with ready := if envs.isEmpty then r else [p] } }, []) := by
  intro envs
  induction envs with
  | nil => intro r _; rfl
  | cons env envs ih =>
    intro r hr
    have hadd : setAdd r p = [p] := by
      rcases hr with rfl | rfl <;> simp [setAdd]
    have hmem : p ∈ (newRoom a b puzzle).players := by
      rcases hp with rfl | rfl <;> simp [newRoom]
    have hstep := onGameReady_waiting env
      { s with rooms := mapSet s.rooms roomId { newRoom a b puzzle with ready := r } }
      p roomId { newRoom a b puzzle with ready := r } (mapGet_mapSet_self _ _ _) hmem
      (by rw [hadd]; simp [newRoom])
    simp only [readyRun, List.map_cons, run, step]
    rw [hstep]
    simp only [mapSet_mapSet, hadd]
    have := ih [p] (Or.inr rfl)
    simp only [readyRun] at this
    rw [this]
    simp

/-- C6: in a room as `tryMatch` makes it (two distinct slots `a`, `b`, empty
ready-set, no start instant), any number of `game:ready` signals of one
participant `p` alone emit nothing and leave the start instant absent, the
ready-set being `[p]` once `p` has signalled; and when the other participant
`q` then signals at clock `now`, the start instant becomes `now + 1500` and
exactly one `game:start` with the room's puzzle and this instant is broadcast,
while players, puzzle, finished flag, rematch-set, gone-map and timer stay as
they were. -/
theorem gameReady_fresh (s : State) (roomId : RoomId) (a b : ConnId) (puzzle : Grid)
    (hne : a ≠ b) (hroom : mapGet s.rooms roomId = some (newRoom a b puzzle))
    (p q : ConnId) (hpq : (p = a ∧ q = b) ∨ (p = b ∧ q = a)) (envs : List Env) (env : Env) :
    run s (readyRun envs p roomId)
      = ({ s with
            rooms := mapSet s.rooms roomId
              { newRoom a b puzzle with ready := if envs.isEmpty then [] else [p] } }, []) ∧
    (envs ≠ [] →
      onGameReady env (run s (readyRun envs p roomId)).1 q roomId
        = ({ s with
              rooms := mapSet s.rooms roomId
                { players := [a, b]
                  puzzle := puzzle
                  startAtMs := some ((env.now : Int) + 1500)
                  finished := false
                  ready := [p, q]
                  rematch := []
                  gone := []
                  dcTimer := none } },
          [Out.emit (Target.room roomId)
            (Msg.gameStart roomId puzzle ((env.now : Int) + 1500))])) := by
  have hp : p = a ∨ p = b := by
    rcases hpq with h | h
    · exact Or.inl h.1
    · exact Or.inr h.1
  have hqp : q ≠ p := by
    rcases hpq with ⟨rfl, rfl⟩ | ⟨rfl, rfl⟩
    · exact Ne.symm hne
    · exact hne
  have hq : q ∈ (newRoom a b puzzle).players := by
    rcases hpq with ⟨_, rfl⟩ | ⟨_, rfl⟩ <;> simp [newRoom]
  have hs : s = { s with
      rooms := mapSet s.rooms roomId
        { newRoom a b puzzle with ready := [] } } := by
    have h0 : ({ newRoom a b puzzle with ready := [] } : Room) = newRoom a b puzzle := rfl
    rw [h0, mapSet_eq_self _ _ _ hroom]
  have hrun := run_readyRun s roomId a b puzzle hne p hp envs [] (Or.inl rfl)
  rw [← hs] at hrun
  refine ⟨hrun, ?_⟩
  intro hne2
  rw [hrun]
  have hemp : envs.isEmpty = false := by
    cases envs with
    | nil => exact absurd rfl hne2
    | cons e es => rfl
  simp only [hemp, Bool.false_eq_true, if_false]
  have hadd : setAdd [p] q = [p, q] := by
    simp [setAdd, hqp]
  have hstep := onGameReady_start env
    { s with rooms := mapSet s.rooms roomId { newRoom a b puzzle with ready := [p] } }
    q roomId { newRoom a b puzzle with ready := [p] } (mapGet_mapSet_self _ _ _) hq
    (by rw [hadd]; simp [newRoom])
  rw [hstep]
  simp only [mapSet_mapSet, hadd, newRoom]

/-- C6 at the sample room: `A` signals twice, then `B` signals at clock 2000. -/
theorem gameReady_fresh_witness :
    run matchedState (readyRun [sampleEnv 1500, sampleEnv 1600] "A" "room_abc123")
      = ({ matchedState with
            rooms := mapSet matchedState.rooms "room_abc123"
              { newRoom "A" "B" (pickPuzzle 0) with ready := ["A"] } }, []) ∧
    onGameReady (sampleEnv 2000)
        (run matchedState (readyRun [sampleEnv 1500, sampleEnv 1600] "A" "room_abc123")).1
        "B" "room_abc123"
      = ({ matchedState with
            rooms := mapSet matchedState.rooms "room_abc123"
              { players := ["A", "B"]
                puzzle := pickPuzzle 0
                startAtMs := some 3500
                finished := false
                ready := ["A", "B"]
                rematch := []
                gone := []
                dcTimer := none } },
          [Out.emit (Target.room "room_abc123")
            (Msg.gameStart "room_abc123" (pickPuzzle 0) 3500)]) :=
  ⟨(gameReady_fresh matchedState "room_abc123" "A" "B" (pickPuzzle 0) (by decide) (by decide)
      "A" "B" (Or.inl ⟨rfl, rfl⟩) [sampleEnv 1500, sampleEnv 1600] (sampleEnv 2000)).1,
    (gameReady_fresh matchedState "room_abc123" "A" "B" (pickPuzzle 0) (by decide) (by decide)
      "A" "B" (Or.inl ⟨rfl, rfl⟩) [sampleEnv 1500, sampleEnv 1600] (sampleEnv 2000)).2
      (by simp)⟩

/-! ## Theorems: `tryMatch` -/

theorem pickPuzzle_mem (i : Fin 3) : pickPuzzle i ∈ puzzles := by
  unfold pickPuzzle
  exact List.get_mem _ _ _

theorem tryMatchLoop_suffix (env : Env) (q : List QueueEntry) (k : Nat)
    (rooms : List (RoomId × Room)) (players : List (ConnId × PlayerMeta)) (outs : List Out) :
    (tryMatchLoop env q k rooms players outs).1 <:+ q := by
  induction q, k, rooms, players, outs using tryMatchLoop.induct env with
  | case1 a b rest k rooms players outs h ih =>
    rw [tryMatchLoop, if_pos h]
    exact ih.trans ((List.suffix_cons b rest).trans (List.suffix_cons a _))
  | case2 a b rest k rooms players outs h h2 ih =>
    rw [tryMatchLoop, if_neg h, if_pos h2]
    exact ih.trans ((List.suffix_cons b rest).trans (List.suffix_cons a _))
  | case3 a b rest k rooms players outs h h2 roomId pA0 pB0 nameA nameB pA pB players2 rooms2 ih =>
    rw [tryMatchLoop, if_neg h, if_neg h2]
    exact ih.trans ((List.suffix_cons b rest).trans (List.suffix_cons a _))
  | case4 q k rooms players outs hq =>
    have hstop : tryMatchLoop env q k rooms players outs = (q, rooms, players, outs) := by
      rw [tryMatchLoop]
      exact hq
    rw [hstop]

/-- Every room in the registry after the loop of `tryMatch` was there before,
or was made by the loop for two connected sockets. -/
theorem tryMatchLoop_rooms (env : Env) (q : List QueueEntry) (k : Nat)
    (rooms : List (RoomId × Room)) (players : List (ConnId × PlayerMeta)) (outs : List Out) :
    ∀ e ∈ (tryMatchLoop env q k rooms players outs).2.1,
      e ∈ rooms ∨ ∃ a b g, e.2 = newRoom a b g ∧ env.live a = true ∧ env.live b = true := by
  induction q, k, rooms, players, outs using tryMatchLoop.induct env with
  | case1 a b rest k rooms players outs h ih =>
    rw [tryMatchLoop, if_pos h]
    exact ih
  | case2 a b rest k rooms players outs h h2 ih =>
    rw [tryMatchLoop, if_neg h, if_pos h2]
    exact ih
  | case3 a b rest k rooms players outs h h2 roomId pA0 pB0 nameA nameB pA pB players2 rooms2 ih =>
    rw [tryMatchLoop, if_neg h, if_neg h2]
    intro e he
    have hlive : env.live a.socketId = true ∧ env.live b.socketId = true := by
      simpa using h2
    rcases ih e he with h3 | h3
    · rcases mem_mapSet _ _ _ _ h3 with h4 | h4
      · exact Or.inl h4
      · exact Or.inr ⟨a.socketId, b.socketId, _, by rw [h4], hlive.1, hlive.2⟩
    · exact Or.inr h3
  | case4 q k rooms players outs hq =>
    have hstop : tryMatchLoop env q k rooms players outs = (q, rooms, players, outs) := by
      rw [tryMatchLoop]
      exact hq
    rw [hstop]
    intro e he
    exact Or.inl he

/-- C7: on a queue of exactly two entries `[a, b]` with distinct, connected
sockets, `tryMatch` empties the queue and stores one room with slots `[a, b]`
in this order, a puzzle of the catalogue, no start instant, not finished, empty
ready-set, rematch-set and gone-map and no timer; both player records get the
room and `finding = false`; `a` is sent `match:found` with the name recorded
for `b` (the name `b` queued with, when it is not empty), and `b` with that of
`a`. And on every queue, every room that `tryMatch` adds has only connected
sockets in its slots. -/
theorem tryMatch_pair (env : Env) (s : State) (a b : QueueEntry)
    (hq : s.queue = [a, b]) (hne : a.socketId ≠ b.socketId)
    (ha : env.live a.socketId = true) (hb : env.live b.socketId = true) :
    (∃ (roomId : RoomId) (puzzle : Grid) (nameA nameB : String),
      puzzle ∈ puzzles ∧
      (a.name ≠ "" → nameA = a.name) ∧ (b.name ≠ "" → nameB = b.name) ∧
      (tryMatch env s).1.queue = [] ∧
      (tryMatch env s).1.rooms = mapSet s.rooms roomId
        { players := [a.socketId, b.socketId], puzzle := puzzle, startAtMs := none,
          finished := false, ready := [], rematch := [], gone := [], dcTimer := none } ∧
      (tryMatch env s).1.timers = s.timers ∧
      mapGet (tryMatch env s).1.players a.socketId
        = some { name := some nameA, roomId := some roomId, finding := some false } ∧
      mapGet (tryMatch env s).1.players b.socketId
        = some { name := some nameB, roomId := some roomId, finding := some false } ∧
      (tryMatch env s).2 =
        [Out.join a.socketId roomId, Out.join b.socketId roomId,
          Out.emit (Target.socket a.socketId) (Msg.matchFound roomId nameB),
          Out.emit (Target.socket b.socketId) (Msg.matchFound roomId nameA)]) ∧
    (∀ (env2 : Env) (s2 : State), ∀ e ∈ (tryMatch env2 s2).1.rooms,
      e ∈ s2.rooms ∨ ∀ p ∈ e.2.players, env2.live p = true) := by
  constructor
  · refine ⟨makeRoomId (env.draws 0).suffix, pickPuzzle (env.draws 0).idx,
      if a.name ≠ "" then a.name
        else strOr ((mapGet s.players a.socketId).getD emptyMeta).name "Player A",
      if b.name ≠ "" then b.name
        else strOr ((mapGet s.players b.socketId).getD emptyMeta).name "Player B",
      pickPuzzle_mem _, fun h => by rw [if_pos h], fun h => by rw [if_pos h], ?_⟩
    simp only [tryMatch, hq, tryMatchLoop, if_neg hne, ha, hb, Bool.not_true, Bool.or_self,
      Bool.false_eq_true, if_false, List.nil_append, newRoom]
    refine ⟨trivial, trivial, trivial, ?_, ?_, trivial⟩
    · rw [mapGet_mapSet_ne _ _ _ _ hne, mapGet_mapSet_self]
    · rw [mapGet_mapSet_self]
  · intro env2 s2 e he
    rcases tryMatchLoop_rooms env2 s2.queue 0 s2.rooms s2.players [] e he with h | ⟨x, y, g, h1, h2, h3⟩
    · exact Or.inl h
    · right
      intro p hp
      rw [h1] at hp
      simp only [newRoom, List.mem_cons, List.mem_singleton, List.not_mem_nil, or_false] at hp
      rcases hp with rfl | rfl
      · exact h2
      · exact h3

/-- C7 at the sample queue `[A, B]`. -/
theorem tryMatch_pair_witness :
    (tryMatch (sampleEnv 1000) pairQueueState).1.queue = [] ∧
    (tryMatch (sampleEnv 1000) pairQueueState).1.rooms
      = [("room_abc123", newRoom "A" "B" (pickPuzzle 0))] ∧
    ∀ e ∈ (tryMatch (sampleEnv 1000) pairQueueState).1.rooms,
      e ∈ pairQueueState.rooms ∨ ∀ p ∈ e.2.players, (sampleEnv 1000).live p = true :=
  ⟨by decide, by decide,
    (tryMatch_pair (sampleEnv 1000) pairQueueState ⟨"A", "Ann"⟩ ⟨"B", "Bob"⟩ rfl (by decide)
      rfl rfl).2 (sampleEnv 1000) pairQueueState⟩

/-- The loop of `tryMatch` as a function, at a queue `[D, A, B]` with `D`
disconnected: it pops `D` and `A` together and drops both, so no room is made
and `B` is left alone. No run of the server produces a queue of three entries
(see `reachable_queueShort`). -/
theorem tryMatch_dead_head :
    deadHeadEnv.live "D" = false ∧ deadHeadEnv.live "A" = true ∧
    deadHeadEnv.live "B" = true ∧
    (tryMatch deadHeadEnv deadHeadState).1.rooms = [] ∧
    (tryMatch deadHeadEnv deadHeadState).1.queue = [⟨"B", "Bob"⟩] ∧
    (tryMatch deadHeadEnv deadHeadState).2 = [] := by
  decide

/-! ## Theorems: what each handler does to the queue -/

theorem onGameReady_queue (env : Env) (s : State) (id : ConnId) (roomId : RoomId) :
    (onGameReady env s id roomId).1.queue = s.queue := by
  unfold onGameReady
  dsimp only
  repeat' split
  all_goals rfl

theorem onGameFinish_queue (env : Env) (s : State) (id : ConnId) (roomId : RoomId)
    (grid : Grid) : (onGameFinish env s id roomId grid).1.queue = s.queue := by
  unfold onGameFinish
  repeat' split
  all_goals rfl

theorem onRematchRequest_queue (env : Env) (s : State) (id : ConnId) (roomId : RoomId) :
    (onRematchRequest env s id roomId).1.queue = s.queue := by
  unfold onRematchRequest
  dsimp only
  repeat' split
  all_goals rfl

theorem onResume_queue (s : State) (id : ConnId) (roomId : RoomId) (name : Option String) :
    (onResume s id roomId name).1.queue = s.queue := by
  unfold onResume
  dsimp only
  repeat' split
  all_goals rfl

theorem onTimer_queue (env : Env) (s : State) (handle : Nat) :
    (onTimer env s handle).1.queue = s.queue := by
  unfold onTimer
  dsimp only
  repeat' split
  all_goals rfl

theorem onDisconnect_queue (env : Env) (s : State) (id : ConnId) :
    (onDisconnect env s id).1.queue = s.queue.eraseP fun e => e.socketId = id := by
  unfold onDisconnect
  dsimp only
  repeat' split
  all_goals rfl

theorem nodup_of_sublist_queue (q q2 : List QueueEntry) (h : q2.Sublist q)
    (hq : (q.map QueueEntry.socketId).Nodup) : (q2.map QueueEntry.socketId).Nodup :=
  List.Nodup.sublist (h.map _) hq

theorem onMatchFind_queueOk (env : Env) (s : State) (id : ConnId) (name : Option String)
    (h : QueueOk s) : QueueOk (onMatchFind env s id name).1 := by
  unfold onMatchFind
  simp only
  split
  · exact h
  · rename_i hany
    have hnot : id ∉ s.queue.map QueueEntry.socketId := by
      intro hmem
      apply hany
      obtain ⟨e, he, rfl⟩ := List.mem_map.mp hmem
      exact List.any_eq_true.mpr ⟨e, he, by simp⟩
    have hnd : ∀ nm : String,
        ((s.queue ++ [(⟨id, nm⟩ : QueueEntry)]).map QueueEntry.socketId).Nodup := by
      intro nm
      rw [List.map_append, List.map_cons, List.map_nil]
      exact List.Nodup.append h (List.nodup_singleton _) (by simpa using hnot)
    exact nodup_of_sublist_queue _ _ (tryMatchLoop_suffix env _ 0 _ _ []).sublist (hnd _)

/-- Every step keeps the queue free of duplicates. -/
theorem step_queueOk (env : Env) (s : State) (e : Event) (h : QueueOk s) :
    QueueOk (step env s e).1 := by
  cases e with
  | connection id => exact h
  | hello id name => exact h
  | ping id => exact h
  | matchFind id name => exact onMatchFind_queueOk env s id name h
  | matchCancel id =>
    exact nodup_of_sublist_queue _ _ (List.eraseP_sublist _) h
  | gameReady id roomId =>
    unfold QueueOk
    rw [step, onGameReady_queue]
    exact h
  | gameFinish id roomId grid =>
    unfold QueueOk
    rw [step, onGameFinish_queue]
    exact h
  | rematchRequest id roomId =>
    unfold QueueOk
    rw [step, onRematchRequest_queue]
    exact h
  | resumeRequest id roomId name =>
    unfold QueueOk
    rw [step, onResume_queue]
    exact h
  | disconnect id =>
    unfold QueueOk
    rw [step, onDisconnect_queue]
    exact nodup_of_sublist_queue _ _ (List.eraseP_sublist _) h
  | timerFire handle =>
    unfold QueueOk
    rw [step, onTimer_queue]
    exact h
  | sweep =>
    exact nodup_of_sublist_queue _ _ (List.filter_sublist _) h

theorem reachable_run (s : State) (es : List (Env × Event)) (h : Reachable s) :
    Reachable (run s es).1 := by
  induction es generalizing s with
  | nil => exact h
  | cons x es ih =>
    obtain ⟨env, e⟩ := x
    exact ih _ (Reachable.step env s e h)

/-- C9: when the queue already holds an entry for the connection, its
`match:find` (with any name) leaves the queue exactly as it was, and makes no
room, arms no timer and emits nothing. -/
theorem matchFind_queued (env : Env) (s : State) (id : ConnId) (name : Option String)
    (h : ∃ e ∈ s.queue, e.socketId = id) :
    (onMatchFind env s id name).1.queue = s.queue ∧
    (onMatchFind env s id name).1.rooms = s.rooms ∧
    (onMatchFind env s id name).1.timers = s.timers ∧
    (onMatchFind env s id name).2 = [] := by
  obtain ⟨e, he, hid⟩ := h
  have hany : (s.queue.any fun q => decide (q.socketId = id)) = true :=
    List.any_eq_true.mpr ⟨e, he, by simp [hid]⟩
  unfold onMatchFind
  simp only [hany, if_true, and_self]

/-- C9 at a queue `[D, A, B]`: `A` asks again, under another name. -/
theorem matchFind_queued_witness :
    (onMatchFind deadHeadEnv deadHeadState "A" (some "Zed")).1.queue
      = [⟨"D", "Dan"⟩, ⟨"A", "Ann"⟩, ⟨"B", "Bob"⟩] ∧
    (onMatchFind deadHeadEnv deadHeadState "A" (some "Zed")).1.rooms = [] ∧
    (onMatchFind deadHeadEnv deadHeadState "A" (some "Zed")).1.timers = [] ∧
    (onMatchFind deadHeadEnv deadHeadState "A" (some "Zed")).2 = [] :=
  matchFind_queued deadHeadEnv deadHeadState "A" (some "Zed")
    ⟨⟨"A", "Ann"⟩, by decide, rfl⟩

/-- C10: in every state reachable from the initial state (empty queue) by
any sequence of steps (connections, client requests, disconnects, timeouts,
housekeeping sweeps, under any clock, liveness table and draws), no connection
identity occurs in more than one queue entry. -/
theorem queue_unique (s : State) (h : Reachable s) :
    (s.queue.map QueueEntry.socketId).Nodup := by
  induction h with
  | init => exact List.nodup_nil
  | step env s e _ ih => exact step_queueOk env s e ih

/-- C10 at the state in which `A` has asked for a match twice. -/
theorem queue_unique_witness :
    ((run State.init [(sampleEnv 1000, Event.matchFind "A" (some "Ann")),
        (sampleEnv 1001, Event.matchFind "A" none)]).1.queue.map QueueEntry.socketId).Nodup :=
  queue_unique _ (reachable_run _ _ Reachable.init)

/-! ## Theorems: start instants are never zero -/

theorem mapGet_mem {α : Type} (m : List (String × α)) (k : String) (v : α)
    (h : mapGet m k = some v) : (k, v) ∈ m := by
  induction m with
  | nil => simp [mapGet] at h
  | cons e m ih =>
    obtain ⟨k2, w⟩ := e
    by_cases h2 : k2 = k
    · simp only [mapGet, if_pos h2, Option.some.injEq] at h
      rw [h2, h]
      exact List.mem_cons_self _ _
    · simp only [mapGet, if_neg h2] at h
      exact List.mem_cons_of_mem _ (ih h)

theorem startOk_mapSet (rooms : List (RoomId × Room)) (roomId : RoomId)
    (room : Room) (h : ∀ e ∈ rooms, e.2.startAtMs ≠ some 0) (hroom : room.startAtMs ≠ some 0) :
    ∀ e ∈ mapSet rooms roomId room, e.2.startAtMs ≠ some 0 := by
  intro e he
  rcases mem_mapSet _ _ _ _ he with h2 | h2
  · exact h e h2
  · rw [h2]
    exact hroom

theorem start_ne_zero (now : Nat) : (some ((now : Int) + 1500) : Option Int) ≠ some 0 := by
  intro h
  simp only [Option.some.injEq] at h
  omega

theorem onGameReady_startOk (env : Env) (s : State) (id : ConnId) (roomId : RoomId)
    (h : StartOk s) : StartOk (onGameReady env s id roomId).1 := by
  unfold onGameReady
  split
  · exact h
  · rename_i room hroom
    have hr : room.startAtMs ≠ some 0 := h _ (mapGet_mem _ _ _ hroom)
    dsimp only
    split
    · exact h
    · split
      · exact startOk_mapSet _ _ _ h (start_ne_zero _)
      · exact startOk_mapSet _ _ _ h hr

theorem onGameFinish_startOk (env : Env) (s : State) (id : ConnId) (roomId : RoomId)
    (grid : Grid) (h : StartOk s) : StartOk (onGameFinish env s id roomId grid).1 := by
  unfold onGameFinish
  split
  · exact h
  · rename_i room hroom
    have hr : room.startAtMs ≠ some 0 := h _ (mapGet_mem _ _ _ hroom)
    split
    · exact h
    · split
      · exact h
      · exact startOk_mapSet _ _ _ h hr

theorem onRematchRequest_startOk (env : Env) (s : State) (id : ConnId) (roomId : RoomId)
    (h : StartOk s) : StartOk (onRematchRequest env s id roomId).1 := by
  unfold onRematchRequest
  split
  · exact h
  · rename_i room hroom
    have hr : room.startAtMs ≠ some 0 := h _ (mapGet_mem _ _ _ hroom)
    dsimp only
    split
    · exact h
    · split
      · exact h
      · split
        · exact startOk_mapSet _ _ _ h (start_ne_zero _)
        · exact startOk_mapSet _ _ _ h hr

theorem onResume_startOk (s : State) (id : ConnId) (roomId : RoomId) (name : Option String)
    (h : StartOk s) : StartOk (onResume s id roomId name).1 := by
  unfold onResume
  split
  · exact h
  · rename_i room hroom
    have hr : room.startAtMs ≠ some 0 := h _ (mapGet_mem _ _ _ hroom)
    split
    · exact h
    · exact startOk_mapSet _ _ _ h hr

theorem onDisconnect_startOk (env : Env) (s : State) (id : ConnId)
    (h : StartOk s) : StartOk (onDisconnect env s id).1 := by
  unfold onDisconnect
  dsimp only
  split
  · exact h
  · split
    · split
      · exact h
      · rename_i room hroom
        have hr : room.startAtMs ≠ some 0 := h _ (mapGet_mem _ _ _ hroom)
        exact startOk_mapSet _ _ _ h hr
    · exact h

theorem onTimer_startOk (env : Env) (s : State) (handle : Nat)
    (h : StartOk s) : StartOk (onTimer env s handle).1 := by
  unfold onTimer
  split
  · exact h
  · split
    · exact h
    · dsimp only
      split
      · exact h
      · rename_i room hroom
        have hr : room.startAtMs ≠ some 0 := h _ (mapGet_mem _ _ _ hroom)
        split
        · exact h
        · split
          · exact startOk_mapSet _ _ _ h hr
          · exact h

theorem tryMatch_startOk (env : Env) (s : State) (h : StartOk s) :
    StartOk (tryMatch env s).1 := by
  intro e he
  rcases tryMatchLoop_rooms env s.queue 0 s.rooms s.players [] e he with h2 | ⟨a, b, g, h2, _, _⟩
  · exact h e h2
  · rw [h2]
    simp [newRoom]

theorem onMatchFind_startOk (env : Env) (s : State) (id : ConnId) (name : Option String)
    (h : StartOk s) : StartOk (onMatchFind env s id name).1 := by
  unfold onMatchFind
  dsimp only
  split
  · exact h
  · exact tryMatch_startOk env _ h

/-- Every step keeps the start instants of all rooms different from 0. -/
theorem step_startOk (env : Env) (s : State) (e : Event) (h : StartOk s) :
    StartOk (step env s e).1 := by
  cases e with
  | connection id => exact h
  | hello id name => exact h
  | ping id => exact h
  | matchFind id name => exact onMatchFind_startOk env s id name h
  | matchCancel id => exact h
  | gameReady id roomId => exact onGameReady_startOk env s id roomId h
  | gameFinish id roomId grid => exact onGameFinish_startOk env s id roomId grid h
  | rematchRequest id roomId => exact onRematchRequest_startOk env s id roomId h
  | resumeRequest id roomId name => exact onResume_startOk s id roomId name h
  | disconnect id => exact onDisconnect_startOk env s id h
  | timerFire handle => exact onTimer_startOk env s handle h
  | sweep =>
    intro e he
    exact h e (List.mem_of_mem_filter he)

/-- In every reachable state, a start instant that is set is not 0: the
server only ever stores `Date.now() + 1500`. -/
theorem reachable_startOk (s : State) (h : Reachable s) : StartOk s := by
  induction h with
  | init =>
    intro e he
    simp [State.init] at he
  | step env s e _ ih => exact step_startOk env s e ih

/-- C2: in a reachable state, a solved grid sent as `game:finish` at clock
`now` by a participant of a known, unfinished room sets `finished` and changes
nothing else (players, puzzle, start instant, ready-set, rematch-set, gone-map
and every other room, the queue and the player records stay as they were), and
broadcasts exactly one `game:win` whose winner is the sender and whose
`elapsedMs` is `max(0, now - startAtMs)` when a start instant is set and 0 when
it is absent; so `elapsedMs` is never negative. -/
theorem gameFinish_win (env : Env) (s : State) (hs : Reachable s) (id : ConnId)
    (roomId : RoomId) (grid : Grid) (room : Room)
    (hroom : mapGet s.rooms roomId = some room) (hfin : room.finished = false)
    (hmem : id ∈ room.players) (hsolved : isSolved grid = true) :
    ∃ elapsed : Int,
      onGameFinish env s id roomId grid =
        ({ s with
            rooms := mapSet s.rooms roomId
              { players := room.players
                puzzle := room.puzzle
                startAtMs := room.startAtMs
                finished := true
                ready := room.ready
                rematch := room.rematch
                gone := room.gone
                dcTimer := room.dcTimer } },
          [Out.emit (Target.room roomId) (Msg.gameWin (some id) elapsed)]) ∧
      elapsed = specElapsed env.now room.startAtMs ∧
      0 ≤ elapsed := by
  have hstart : room.startAtMs ≠ some 0 := reachable_startOk s hs _ (mapGet_mem _ _ _ hroom)
  exact ⟨elapsedMs env.now room.startAtMs,
    onGameFinish_solved env s id roomId grid room hroom hfin hmem hsolved,
    elapsedMs_eq _ _ hstart, elapsedMs_nonneg _ _⟩

/-- C2 at the started sample room (start instant 3500): `A` finishes at
clock 9000 and wins with 5500 ms elapsed. -/
theorem gameFinish_win_witness :
    ∃ elapsed : Int,
      onGameFinish (sampleEnv 9000) startedState "A" "room_abc123" solvedGrid =
        ({ startedState with
            rooms := mapSet startedState.rooms "room_abc123"
              { players := ["A", "B"]
                puzzle := pickPuzzle 0
                startAtMs := some 3500
                finished := true
                ready := ["A", "B"]
                rematch := []
                gone := []
                dcTimer := none } },
          [Out.emit (Target.room "room_abc123") (Msg.gameWin (some "A") elapsed)]) ∧
      elapsed = specElapsed 9000 (some 3500) ∧
      0 ≤ elapsed :=
  gameFinish_win (sampleEnv 9000) startedState
    (reachable_run _ _ (reachable_run _ _ Reachable.init)) "A" "room_abc123" solvedGrid
    { (newRoom "A" "B" (pickPuzzle 0)) with startAtMs := some 3500, ready := ["A", "B"] }
    (by decide) (by decide) (by decide) (by decide)

/-! ## Theorems: stale and foreign requests -/

/-- C18: `game:ready` and `game:rematch_request` for an unknown room, or from
a connection that is not a slot of the room, and `resume:request` for an
unknown room, or for a room none of whose slots is marked gone, leave the whole
state (rooms, queue, player records, timers) as it was and emit nothing. -/
theorem stale_requests_ignored (env : Env) (s : State) (id : ConnId) (roomId : RoomId)
    (name : Option String) :
    ((mapGet s.rooms roomId = none ∨
        ∃ room, mapGet s.rooms roomId = some room ∧ id ∉ room.players) →
      onGameReady env s id roomId = (s, []) ∧ onRematchRequest env s id roomId = (s, [])) ∧
    ((mapGet s.rooms roomId = none ∨
        ∃ room, mapGet s.rooms roomId = some room ∧
          ∀ p ∈ room.players, mapHas room.gone p = false) →
      onResume s id roomId name = (s, [])) := by
  constructor
  · rintro (h | ⟨room, hroom, h⟩)
    · simp [onGameReady, onRematchRequest, h]
    · simp [onGameReady, onRematchRequest, hroom, h]
  · rintro (h | ⟨room, hroom, h⟩)
    · simp [onResume, h]
    · have hfind : (room.players.find? fun pid => mapHas room.gone pid) = none := by
        rw [List.find?_eq_none]
        intro p hp
        simp [h p hp]
      simp [onResume, hroom, hfind]

/-- C18 at the sample rooms: a stranger `C` in the started room, and a resume
for a room in which nobody is gone. -/
theorem stale_requests_ignored_witness :
    (onGameReady (sampleEnv 5000) startedState "C" "room_abc123" = (startedState, []) ∧
      onRematchRequest (sampleEnv 5000) startedState "C" "room_abc123" = (startedState, [])) ∧
    onResume startedState "C" "room_abc123" (some "Cid") = (startedState, []) :=
  ⟨(stale_requests_ignored (sampleEnv 5000) startedState "C" "room_abc123" (some "Cid")).1
      (Or.inr ⟨{ (newRoom "A" "B" (pickPuzzle 0)) with
          startAtMs := some 3500, ready := ["A", "B"] }, by decide, by decide⟩),
    (stale_requests_ignored (sampleEnv 5000) startedState "C" "room_abc123" (some "Cid")).2
      (Or.inr ⟨{ (newRoom "A" "B" (pickPuzzle 0)) with
          startAtMs := some 3500, ready := ["A", "B"] }, by decide, by decide⟩)⟩

/-! ## Theorems: `game:rematch_request` -/

/-- C13: while the gone-map of a room is not empty, a `game:rematch_request`
of a participant changes no state at all and produces exactly one event,
`game:rematch_denied` with reason `opponent_offline`, sent to the requester
alone. -/
theorem rematch_denied_while_gone (env : Env) (s : State) (id : ConnId) (roomId : RoomId)
    (room : Room) (hroom : mapGet s.rooms roomId = some room) (hmem : id ∈ room.players)
    (hgone : room.gone ≠ []) :
    onRematchRequest env s id roomId
      = (s, [Out.emit (Target.socket id) (Msg.rematchDenied "opponent_offline")]) := by
  have hlen : 0 < room.gone.length := List.length_pos.mpr hgone
  simp [onRematchRequest, hroom, hmem, hlen]

/-- C13 at the sample room in which `A` is gone: `B` asks for a rematch. -/
theorem rematch_denied_while_gone_witness :
    onRematchRequest (sampleEnv 12000) goneState "B" "room_abc123"
      = (goneState, [Out.emit (Target.socket "B") (Msg.rematchDenied "opponent_offline")]) :=
  rematch_denied_while_gone (sampleEnv 12000) goneState "B" "room_abc123"
    { (newRoom "A" "B" (pickPuzzle 0)) with
      startAtMs := some 3500, ready := ["A", "B"], gone := [("A", 10000)], dcTimer := some 0 }
    (by decide) (by decide) (by decide)

/-! ## Theorems: `resume:request` -/

theorem find_clearTimeout (timers : List Timer) (h : Nat) :
    ((clearTimeout timers h).find? fun t => t.id = h) = none := by
  rw [List.find?_eq_none]
  intro t ht
  have := (List.mem_filter.mp ht).2
  simpa using this

theorem onTimer_not_pending (env : Env) (s : State) (h : Nat)
    (hnone : (s.timers.find? fun t => t.id = h) = none) : onTimer env s h = (s, []) := by
  unfold onTimer
  rw [hnone]

theorem mapGet_none_of_not_mem {α : Type} (m : List (String × α)) (k : String)
    (h : k ∉ m.map Prod.fst) : mapGet m k = none := by
  induction m with
  | nil => rfl
  | cons e m ih =>
    obtain ⟨k2, w⟩ := e
    simp only [List.map_cons, List.mem_cons, not_or] at h
    simp only [mapGet, if_neg (Ne.symm h.1)]
    exact ih h.2

theorem mapHas_mapDelete {α : Type} (m : List (String × α)) (k : String)
    (h : (m.map Prod.fst).Nodup) : mapHas (mapDelete m k) k = false := by
  induction m with
  | nil => rfl
  | cons e m ih =>
    obtain ⟨k2, w⟩ := e
    simp only [List.map_cons, List.nodup_cons] at h
    by_cases h2 : k2 = k
    · subst h2
      simp [mapDelete, mapHas, mapGet_none_of_not_mem m k2 h.1]
    · have := ih h.2
      simp only [mapHas] at this
      simp [mapDelete, mapHas, mapGet, h2, this]

/-- C11: in a room with slots `[p, q]` of which at least one is marked gone,
`resume:request` from a connection `c` rebinds the first slot, in slot order,
that is marked gone to `c` and leaves the other slot as it was, deletes the
reclaimed identity from the gone-map, clears the room's timeout and sets the
handle to null (so that the timeout of this handle does nothing when the event
loop comes to it), and stores for `c` a player record that points at the room
with `finding = false`; finished flag, puzzle, start instant, ready-set and
rematch-set stay as they were, and `resume:ok`, sent to `c`, carries the
room's puzzle and start instant. -/
theorem resume_rebinds (s : State) (c : ConnId) (roomId : RoomId) (name : Option String)
    (room : Room) (p q : ConnId) (hroom : mapGet s.rooms roomId = some room)
    (hplayers : room.players = [p, q])
    (hgone : mapHas room.gone p = true ∨ mapHas room.gone q = true) :
    onResume s c roomId name =
      ({ s with
          rooms := mapSet s.rooms roomId
            { players := if mapHas room.gone p then [c, q] else [p, c]
              puzzle := room.puzzle
              startAtMs := room.startAtMs
              finished := room.finished
              ready := room.ready
              rematch := room.rematch
              gone := mapDelete room.gone (if mapHas room.gone p then p else q)
              dcTimer := none }
          timers := match room.dcTimer with
            | some h => clearTimeout s.timers h
            | none => s.timers
          players := mapSet s.players c
            { name := some (strOr name "Player"), roomId := some roomId,
              finding := some false } },
        [Out.join c roomId,
          Out.emit (Target.socket c) (Msg.resumeOk roomId room.startAtMs room.puzzle),
          Out.emit (Target.others roomId c) Msg.opponentReconnected]) ∧
    ((room.gone.map Prod.fst).Nodup →
      mapHas (mapDelete room.gone (if mapHas room.gone p then p else q))
        (if mapHas room.gone p then p else q) = false) ∧
    (∀ (env : Env) (h : Nat), room.dcTimer = some h →
      onTimer env (onResume s c roomId name).1 h = ((onResume s c roomId name).1, [])) := by
  have hmain : onResume s c roomId name =
      ({ s with
          rooms := mapSet s.rooms roomId
            { players := if mapHas room.gone p then [c, q] else [p, c]
              puzzle := room.puzzle
              startAtMs := room.startAtMs
              finished := room.finished
              ready := room.ready
              rematch := room.rematch
              gone := mapDelete room.gone (if mapHas room.gone p then p else q)
              dcTimer := none }
          timers := match room.dcTimer with
            | some h => clearTimeout s.timers h
            | none => s.timers
          players := mapSet s.players c
            { name := some (strOr name "Player"), roomId := some roomId,
              finding := some false } },
        [Out.join c roomId,
          Out.emit (Target.socket c) (Msg.resumeOk roomId room.startAtMs room.puzzle),
          Out.emit (Target.others roomId c) Msg.opponentReconnected]) := by
    by_cases hp : mapHas room.gone p = true
    · simp [onResume, hroom, hplayers, hp, replaceFirst]
    · have hq : mapHas room.gone q = true := by
        rcases hgone with h | h
        · exact absurd h hp
        · exact h
      have hpq : p ≠ q := by
        intro h
        rw [h] at hp
        exact hp hq
      simp [onResume, hroom, hplayers, hp, hq, replaceFirst, hpq]
  refine ⟨hmain, fun hnd => mapHas_mapDelete _ _ hnd, ?_⟩
  intro env h hh
  apply onTimer_not_pending
  rw [hmain]
  simp only [hh]
  exact find_clearTimeout _ _

/-- C11 at the sample room in which both are gone (the pending timeout is
the one of `B`): `C` resumes and takes the slot of `A`. -/
theorem resume_rebinds_witness :
    (mapGet (onResume bothGoneState "C" "room_abc123" (some "Cid")).1.rooms "room_abc123").map
        (fun r => (r.players, r.gone, r.dcTimer, r.finished, r.startAtMs))
      = some (["C", "B"], [("B", 11000)], none, false, some 3500) ∧
    (onResume bothGoneState "C" "room_abc123" (some "Cid")).1.timers = [] ∧
    onTimer (sampleEnv 30000) (onResume bothGoneState "C" "room_abc123" (some "Cid")).1 1
      = ((onResume bothGoneState "C" "room_abc123" (some "Cid")).1, []) :=
  ⟨rfl, rfl,
    (resume_rebinds bothGoneState "C" "room_abc123" (some "Cid")
      { (newRoom "A" "B" (pickPuzzle 0)) with
        startAtMs := some 3500, ready := ["A", "B"], gone := [("A", 10000), ("B", 11000)],
        dcTimer := some 1 }
      "A" "B" (by decide) rfl (Or.inl (by decide))).2.2 (sampleEnv 30000) 1 rfl⟩

/-- A `game:rematch_request` of a participant, nobody gone, that does not
complete the rematch-set. -/
theorem onRematchRequest_waiting (env : Env) (s : State) (id : ConnId) (roomId : RoomId)
    (room : Room) (hroom : mapGet s.rooms roomId = some room) (hmem : id ∈ room.players)
    (hgone : room.gone = [])
    (hlen : (setAdd room.rematch id).length ≠ room.players.length) :
    onRematchRequest env s id roomId =
      ({ s with
          rooms := mapSet s.rooms roomId { room with rematch := setAdd room.rematch id } },
        [Out.emit (Target.others roomId id) (Msg.rematchStatus true)]) := by
  simp [onRematchRequest, hroom, hmem, hgone, hlen]

/-- A `game:rematch_request` of a participant, nobody gone, that completes
the rematch-set. -/
theorem onRematchRequest_reset (env : Env) (s : State) (id : ConnId) (roomId : RoomId)
    (room : Room) (hroom : mapGet s.rooms roomId = some room) (hmem : id ∈ room.players)
    (hgone : room.gone = [])
    (hlen : (setAdd room.rematch id).length = room.players.length) :
    onRematchRequest env s id roomId =
      ({ s with
          rooms := mapSet s.rooms roomId
            { players := room.players
              puzzle := pickPuzzle (env.draws 0).idx
              startAtMs := some ((env.now : Int) + 1500)
              finished := false
              ready := []
              rematch := []
              gone := room.gone
              dcTimer := room.dcTimer } },
        [Out.emit (Target.others roomId id) (Msg.rematchStatus true),
          Out.emit (Target.room roomId)
            (Msg.gameStart roomId (pickPuzzle (env.draws 0).idx) ((env.now : Int) + 1500))]) := by
  simp [onRematchRequest, hroom, hmem, hgone, hlen]

theorem run_rematchRun (s : State) (roomId : RoomId) (room : Room) (p : ConnId)
    (hp : p ∈ room.players) (hlen : room.players.length = 2) (hgone : room.gone = []) :
    ∀ (envs : List Env) (r : List ConnId), (r = [] ∨ r = [p]) →
      run { s with rooms := mapSet s.rooms roomId { room with rematch := r } }
          (rematchRun envs p roomId)
        = ({ s with
              rooms := mapSet s.rooms roomId
                { room with rematch := if envs.isEmpty then r else [p] } },
            envs.map fun _ => Out.emit (Target.others roomId p) (Msg.rematchStatus true)) := by
  intro envs
  induction envs with
  | nil => intro r _; rfl
  | cons env envs ih =>
    intro r hr
    have hadd : setAdd r p = [p] := by
      rcases hr with rfl | rfl <;> simp [setAdd]
    have hstep := onRematchRequest_waiting env
      { s with rooms := mapSet s.rooms roomId { room with rematch := r } }
      p roomId { room with rematch := r } (mapGet_mapSet_self _ _ _) hp hgone
      (by
        show (setAdd r p).length ≠ room.players.length
        rw [hadd, hlen]
        simp)
    simp only [rematchRun, List.map_cons, run, step]
    rw [hstep]
    simp only [mapSet_mapSet, hadd]
    have := ih [p] (Or.inr rfl)
    simp only [rematchRun] at this
    rw [this]
    simp

/-- C14: in a room with two distinct slots `a`, `b` and an empty gone-map,
any number of `game:rematch_request` signals of one participant `p` alone
change only the rematch-set (to `[p]`) and never puzzle, finished flag,
ready-set or start instant; and when the other participant `q` then asks at
clock `now`, the puzzle becomes a board of the catalogue, `finished` becomes
false, ready-set and rematch-set become empty, the start instant becomes
`now + 1500`, and one `game:start` with the new puzzle and this instant is
broadcast, while players, gone-map and timer handle stay as they were. -/
theorem rematch_both (s : State) (roomId : RoomId) (room : Room) (a b : ConnId)
    (hne : a ≠ b) (hroom : mapGet s.rooms roomId = some room)
    (hplayers : room.players = [a, b]) (hgone : room.gone = [])
    (p q : ConnId) (hpq : (p = a ∧ q = b) ∨ (p = b ∧ q = a))
    (hrem : room.rematch = [] ∨ room.rematch = [p]) (envs : List Env) (env : Env) :
    run s (rematchRun envs p roomId)
      = ({ s with
            rooms := mapSet s.rooms roomId
              { room with rematch := if envs.isEmpty then room.rematch else [p] } },
          envs.map fun _ => Out.emit (Target.others roomId p) (Msg.rematchStatus true)) ∧
    ((envs ≠ [] ∨ room.rematch = [p]) →
      onRematchRequest env (run s (rematchRun envs p roomId)).1 q roomId
        = ({ s with
              rooms := mapSet s.rooms roomId
                { players := [a, b]
                  puzzle := pickPuzzle (env.draws 0).idx
                  startAtMs := some ((env.now : Int) + 1500)
                  finished := false
                  ready := []
                  rematch := []
                  gone := []
                  dcTimer := room.dcTimer } },
            [Out.emit (Target.others roomId q) (Msg.rematchStatus true),
              Out.emit (Target.room roomId)
                (Msg.gameStart roomId (pickPuzzle (env.draws 0).idx)
                  ((env.now : Int) + 1500))])) ∧
    pickPuzzle (env.draws 0).idx ∈ puzzles := by
  have hp : p ∈ room.players := by
    rw [hplayers]
    rcases hpq with ⟨rfl, _⟩ | ⟨rfl, _⟩ <;> simp
  have hq : q ∈ room.players := by
    rw [hplayers]
    rcases hpq with ⟨_, rfl⟩ | ⟨_, rfl⟩ <;> simp
  have hqp : q ≠ p := by
    rcases hpq with ⟨rfl, rfl⟩ | ⟨rfl, rfl⟩
    · exact Ne.symm hne
    · exact hne
  have hlen : room.players.length = 2 := by rw [hplayers]; rfl
  have h0 : ({ room with rematch := room.rematch } : Room) = room := rfl
  have hs : s = { s with rooms := mapSet s.rooms roomId { room with rematch := room.rematch } } := by
    rw [h0, mapSet_eq_self _ _ _ hroom]
  have hrun := run_rematchRun s roomId room p hp hlen hgone envs room.rematch hrem
  rw [← hs] at hrun
  refine ⟨hrun, ?_, pickPuzzle_mem _⟩
  intro hne2
  rw [hrun]
  have hafter : (if envs.isEmpty then room.rematch else [p]) = [p] := by
    cases envs with
    | nil =>
      rcases hne2 with h | h
      · exact absurd rfl h
      · simpa using h
    | cons e es => rfl
  rw [hafter]
  have hadd : setAdd [p] q = [p, q] := by
    simp [setAdd, hqp]
  have hstep := onRematchRequest_reset env
    { s with rooms := mapSet s.rooms roomId { room with rematch := [p] } }
    q roomId { room with rematch := [p] } (mapGet_mapSet_self _ _ _) hq hgone
    (by
      show (setAdd [p] q).length = room.players.length
      rw [hadd, hlen]
      rfl)
  rw [hstep]
  simp only [mapSet_mapSet, hplayers, hgone]

/-- C14 at the finished sample room: `B` asks twice, then `A` asks at clock
20000. -/
theorem rematch_both_witness :
    run finishedState (rematchRun [sampleEnv 15000, sampleEnv 16000] "B" "room_abc123")
      = ({ finishedState with
            rooms := mapSet finishedState.rooms "room_abc123"
              { players := ["A", "B"]
                puzzle := pickPuzzle 0
                startAtMs := some 3500
                finished := true
                ready := ["A", "B"]
                rematch := ["B"]
                gone := []
                dcTimer := none } },
          [Out.emit (Target.others "room_abc123" "B") (Msg.rematchStatus true),
            Out.emit (Target.others "room_abc123" "B") (Msg.rematchStatus true)]) ∧
    onRematchRequest (sampleEnv 20000)
        (run finishedState (rematchRun [sampleEnv 15000, sampleEnv 16000] "B" "room_abc123")).1
        "A" "room_abc123"
      = ({ finishedState with
            rooms := mapSet finishedState.rooms "room_abc123"
              { players := ["A", "B"]
                puzzle := pickPuzzle 0
                startAtMs := some 21500
                finished := false
                ready := []
                rematch := []
                gone := []
                dcTimer := none } },
          [Out.emit (Target.others "room_abc123" "A") (Msg.rematchStatus true),
            Out.emit (Target.room "room_abc123")
              (Msg.gameStart "room_abc123" (pickPuzzle 0) 21500)]) :=
  ⟨(rematch_both finishedState "room_abc123"
      { (newRoom "A" "B" (pickPuzzle 0)) with
        startAtMs := some 3500, ready := ["A", "B"], finished := true }
      "A" "B" (by decide) (by decide) rfl rfl "B" "A" (Or.inr ⟨rfl, rfl⟩) (Or.inl rfl)
      [sampleEnv 15000, sampleEnv 16000] (sampleEnv 20000)).1,
    (rematch_both finishedState "room_abc123"
      { (newRoom "A" "B" (pickPuzzle 0)) with
        startAtMs := some 3500, ready := ["A", "B"], finished := true }
      "A" "B" (by decide) (by decide) rfl rfl "B" "A" (Or.inr ⟨rfl, rfl⟩) (Or.inl rfl)
      [sampleEnv 15000, sampleEnv 16000] (sampleEnv 20000)).2.1 (Or.inl (by simp))⟩

/-! ## Theorems: housekeeping sweep -/

/-- When a two-slot room is reaped: both slots are in the gone-map and the
earlier of the two recorded instants lies more than 30000 ms back. -/
theorem reaped_iff (now : Int) (room : Room) (p q : ConnId) (hplayers : room.players = [p, q])
    (hnz : ∀ x t, mapGet room.gone x = some t → t ≠ 0) :
    reaped now room = true ↔
      ∃ tp tq, mapGet room.gone p = some tp ∧ mapGet room.gone q = some tq ∧
        now - min tp tq > 30000 := by
  cases hp : mapGet room.gone p with
  | none => simp [reaped, hplayers, mapHas, hp]
  | some tp =>
    cases hq : mapGet room.gone q with
    | none => simp [reaped, hplayers, mapHas, hp, hq]
    | some tq =>
      have h1 : tp ≠ 0 := hnz p tp hp
      have h2 : tq ≠ 0 := hnz q tq hq
      simp [reaped, hplayers, mapHas, hp, hq, minOf, numOr, h1, h2]

/-- C17: a sweep at clock `now` emits nothing, and every room it leaves in the
registry is a room that was there, with all its fields as they were; it
deletes a room with slots `p`, `q` exactly when both slots are in the gone-map
and `now` minus the earlier of the two recorded instants exceeds 30000 (at
exactly 30000 the room is kept), the recorded instants being clock readings
other than 0. -/
theorem sweep_reaps (env : Env) (s : State) :
    (sweep env s).2 = [] ∧
    (∀ e ∈ (sweep env s).1.rooms, e ∈ s.rooms) ∧
    ∀ (roomId : RoomId) (room : Room) (p q : ConnId),
      (roomId, room) ∈ s.rooms → room.players = [p, q] →
      (∀ x t, mapGet room.gone x = some t → t ≠ 0) →
      ((roomId, room) ∉ (sweep env s).1.rooms ↔
        ∃ tp tq, mapGet room.gone p = some tp ∧ mapGet room.gone q = some tq ∧
          (env.now : Int) - min tp tq > 30000) := by
  refine ⟨rfl, fun e he => List.mem_of_mem_filter he, ?_⟩
  intro roomId room p q hmem hplayers hnz
  rw [← reaped_iff env.now room p q hplayers hnz]
  simp only [sweep, List.mem_filter, hmem, true_and, Bool.not_eq_true', Bool.not_eq_false]

/-- C17 at the sample room in which both are gone since 10000 and 11000: it
is kept at clock 40000 and deleted at clock 40001. -/
theorem sweep_reaps_witness :
    (("room_abc123", { (newRoom "A" "B" (pickPuzzle 0)) with
          startAtMs := some 3500, ready := ["A", "B"],
          gone := [("A", 10000), ("B", 11000)], dcTimer := some 1 })
        ∉ (sweep (sampleEnv 40001) bothGoneState).1.rooms ↔
      ∃ tp tq : Int, mapGet [("A", (10000 : Int)), ("B", 11000)] "A" = some tp ∧
        mapGet [("A", (10000 : Int)), ("B", 11000)] "B" = some tq ∧
        (((sampleEnv 40001).now : Nat) : Int) - min tp tq > 30000) ∧
    (sweep (sampleEnv 40000) bothGoneState).1.rooms = bothGoneState.rooms ∧
    (sweep (sampleEnv 40001) bothGoneState).1.rooms = [] :=
  ⟨(sweep_reaps (sampleEnv 40001) bothGoneState).2.2 "room_abc123"
      { (newRoom "A" "B" (pickPuzzle 0)) with
        startAtMs := some 3500, ready := ["A", "B"],
        gone := [("A", 10000), ("B", 11000)], dcTimer := some 1 }
      "A" "B" (by decide) rfl (by
        intro x t h
        simp only [newRoom, mapGet] at h
        split at h
        · simp only [Option.some.injEq] at h
          omega
        · split at h
          · simp only [Option.some.injEq] at h
            omega
          · exact absurd h (by simp)),
    by decide, by decide⟩

/-! ## Theorems: room entries stay in order -/

theorem entryOk_mapSet (rooms : List (RoomId × Room)) (roomId : RoomId) (room : Room)
    (h : ∀ e ∈ rooms, EntryOk e) (hroom : EntryOk (roomId, room)) :
    ∀ e ∈ mapSet rooms roomId room, EntryOk e := by
  intro e he
  rcases mem_mapSet _ _ _ _ he with h2 | h2
  · exact h e h2
  · rw [h2]
    exact hroom

theorem makeRoomId_ne_empty (suffix : String) : makeRoomId suffix ≠ "" := by
  intro h
  have hl := congrArg String.length h
  simp only [makeRoomId, String.length_append] at hl
  have h5 : "room_".length = 5 := by decide
  have h0 : "".length = 0 := by decide
  omega

theorem mapDelete_ne_nil {α : Type} (m : List (String × α)) (k : String)
    (h : mapDelete m k ≠ []) : m ≠ [] := by
  intro hm
  rw [hm] at h
  exact h rfl

/-- Every room entry after the loop of `tryMatch` was there before, or is a
fresh room under a key made by `makeRoomId`. -/
theorem tryMatchLoop_entries (env : Env) (q : List QueueEntry) (k : Nat)
    (rooms : List (RoomId × Room)) (players : List (ConnId × PlayerMeta)) (outs : List Out) :
    ∀ e ∈ (tryMatchLoop env q k rooms players outs).2.1,
      e ∈ rooms ∨ ∃ suffix a b g, e = (makeRoomId suffix, newRoom a b g) := by
  induction q, k, rooms, players, outs using tryMatchLoop.induct env with
  | case1 a b rest k rooms players outs h ih =>
    rw [tryMatchLoop, if_pos h]
    exact ih
  | case2 a b rest k rooms players outs h h2 ih =>
    rw [tryMatchLoop, if_neg h, if_pos h2]
    exact ih
  | case3 a b rest k rooms players outs h h2 roomId pA0 pB0 nameA nameB pA pB players2 rooms2 ih =>
    rw [tryMatchLoop, if_neg h, if_neg h2]
    intro e he
    rcases ih e he with h3 | h3
    · rcases mem_mapSet _ _ _ _ h3 with h4 | h4
      · exact Or.inl h4
      · exact Or.inr ⟨_, _, _, _, h4⟩
    · exact Or.inr h3
  | case4 q k rooms players outs hq =>
    have hstop : tryMatchLoop env q k rooms players outs = (q, rooms, players, outs) := by
      rw [tryMatchLoop]
      exact hq
    rw [hstop]
    intro e he
    exact Or.inl he

theorem entryOk_newRoom (suffix : String) (a b : ConnId) (g : Grid) :
    EntryOk (makeRoomId suffix, newRoom a b g) :=
  ⟨makeRoomId_ne_empty suffix, fun h => absurd rfl h⟩

theorem onMatchFind_roomsOk (env : Env) (s : State) (id : ConnId) (name : Option String)
    (h : RoomsOk s) : RoomsOk (onMatchFind env s id name).1 := by
  unfold onMatchFind
  dsimp only
  split
  · exact h
  · intro e he
    rcases tryMatchLoop_entries env _ 0 s.rooms _ [] e he with h2 | ⟨sfx, a, b, g, h2⟩
    · exact h e h2
    · rw [h2]
      exact entryOk_newRoom sfx a b g

theorem onGameReady_roomsOk (env : Env) (s : State) (id : ConnId) (roomId : RoomId)
    (h : RoomsOk s) : RoomsOk (onGameReady env s id roomId).1 := by
  unfold onGameReady
  split
  · exact h
  · rename_i room hroom
    have hr : EntryOk (roomId, room) := h _ (mapGet_mem _ _ _ hroom)
    dsimp only
    split
    · exact h
    · split
      · exact entryOk_mapSet _ _ _ h ⟨hr.1, hr.2⟩
      · exact entryOk_mapSet _ _ _ h ⟨hr.1, hr.2⟩

theorem onGameFinish_roomsOk (env : Env) (s : State) (id : ConnId) (roomId : RoomId)
    (grid : Grid) (h : RoomsOk s) : RoomsOk (onGameFinish env s id roomId grid).1 := by
  unfold onGameFinish
  split
  · exact h
  · rename_i room hroom
    have hr : EntryOk (roomId, room) := h _ (mapGet_mem _ _ _ hroom)
    split
    · exact h
    · split
      · exact h
      · exact entryOk_mapSet _ _ _ h ⟨hr.1, hr.2⟩

theorem onRematchRequest_roomsOk (env : Env) (s : State) (id : ConnId) (roomId : RoomId)
    (h : RoomsOk s) : RoomsOk (onRematchRequest env s id roomId).1 := by
  unfold onRematchRequest
  split
  · exact h
  · rename_i room hroom
    have hr : EntryOk (roomId, room) := h _ (mapGet_mem _ _ _ hroom)
    dsimp only
    split
    · exact h
    · split
      · exact h
      · rename_i hgone
        have hnil : room.gone = [] := by
          cases hg : room.gone with
          | nil => rfl
          | cons x xs =>
            rw [hg] at hgone
            simp at hgone
        split
        · exact entryOk_mapSet _ _ _ h ⟨hr.1, fun hne => absurd hnil hne⟩
        · exact entryOk_mapSet _ _ _ h ⟨hr.1, fun hne => absurd hnil hne⟩

theorem onResume_roomsOk (s : State) (id : ConnId) (roomId : RoomId) (name : Option String)
    (h : RoomsOk s) : RoomsOk (onResume s id roomId name).1 := by
  unfold onResume
  split
  · exact h
  · rename_i room hroom
    have hr : EntryOk (roomId, room) := h _ (mapGet_mem _ _ _ hroom)
    split
    · exact h
    · exact entryOk_mapSet _ _ _ h ⟨hr.1, fun hne => hr.2 (mapDelete_ne_nil _ _ hne)⟩

theorem onDisconnect_roomsOk (env : Env) (s : State) (id : ConnId)
    (h : RoomsOk s) : RoomsOk (onDisconnect env s id).1 := by
  unfold onDisconnect
  dsimp only
  split
  · exact h
  · split
    · split
      · exact h
      · rename_i room hroom
        have hr : EntryOk (_, room) := h _ (mapGet_mem _ _ _ hroom)
        exact entryOk_mapSet _ _ _ h ⟨hr.1, fun _ => rfl⟩
    · exact h

theorem onTimer_roomsOk (env : Env) (s : State) (handle : Nat)
    (h : RoomsOk s) : RoomsOk (onTimer env s handle).1 := by
  unfold onTimer
  split
  · exact h
  · split
    · exact h
    · dsimp only
      split
      · exact h
      · rename_i room hroom
        have hr : EntryOk (_, room) := h _ (mapGet_mem _ _ _ hroom)
        split
        · exact h
        · split
          · exact entryOk_mapSet _ _ _ h ⟨hr.1, hr.2⟩
          · exact h

/-- Every step keeps the room entries in order. -/
theorem step_roomsOk (env : Env) (s : State) (e : Event) (h : RoomsOk s) :
    RoomsOk (step env s e).1 := by
  cases e with
  | connection id => exact h
  | hello id name => exact h
  | ping id => exact h
  | matchFind id name => exact onMatchFind_roomsOk env s id name h
  | matchCancel id => exact h
  | gameReady id roomId => exact onGameReady_roomsOk env s id roomId h
  | gameFinish id roomId grid => exact onGameFinish_roomsOk env s id roomId grid h
  | rematchRequest id roomId => exact onRematchRequest_roomsOk env s id roomId h
  | resumeRequest id roomId name => exact onResume_roomsOk s id roomId name h
  | disconnect id => exact onDisconnect_roomsOk env s id h
  | timerFire handle => exact onTimer_roomsOk env s handle h
  | sweep =>
    intro e he
    exact h e (List.mem_of_mem_filter he)

theorem reachable_roomsOk (s : State) (h : Reachable s) : RoomsOk s := by
  induction h with
  | init =>
    intro e he
    simp [State.init] at he
  | step env s e _ ih => exact step_roomsOk env s e ih

/-! ## Theorems: room keys stay unique -/

theorem mem_keys_mapSet {α : Type} (m : List (String × α)) (k : String) (v : α) (x : String)
    (h : x ∈ (mapSet m k v).map Prod.fst) : x ∈ m.map Prod.fst ∨ x = k := by
  obtain ⟨e, he, rfl⟩ := List.mem_map.mp h
  rcases mem_mapSet _ _ _ _ he with h2 | h2
  · exact Or.inl (List.mem_map.mpr ⟨e, h2, rfl⟩)
  · exact Or.inr (by rw [h2])

theorem nodup_keys_mapSet {α : Type} (m : List (String × α)) (k : String) (v : α)
    (h : (m.map Prod.fst).Nodup) : ((mapSet m k v).map Prod.fst).Nodup := by
  induction m with
  | nil => simp [mapSet]
  | cons e m ih =>
    obtain ⟨k2, w⟩ := e
    simp only [List.map_cons, List.nodup_cons] at h
    by_cases h2 : k2 = k
    · subst h2
      simp only [mapSet, if_true, List.map_cons, List.nodup_cons]
      exact h
    · simp only [mapSet, if_neg h2, List.map_cons, List.nodup_cons]
      refine ⟨?_, ih h.2⟩
      intro hmem
      rcases mem_keys_mapSet m k v k2 hmem with h3 | h3
      · exact h.1 h3
      · exact h2 h3

theorem tryMatchLoop_keys (env : Env) (q : List QueueEntry) (k : Nat)
    (rooms : List (RoomId × Room)) (players : List (ConnId × PlayerMeta)) (outs : List Out) :
    (rooms.map Prod.fst).Nodup →
      ((tryMatchLoop env q k rooms players outs).2.1.map Prod.fst).Nodup := by
  induction q, k, rooms, players, outs using tryMatchLoop.induct env with
  | case1 a b rest k rooms players outs h ih =>
    rw [tryMatchLoop, if_pos h]
    exact ih
  | case2 a b rest k rooms players outs h h2 ih =>
    rw [tryMatchLoop, if_neg h, if_pos h2]
    exact ih
  | case3 a b rest k rooms players outs h h2 roomId pA0 pB0 nameA nameB pA pB players2 rooms2 ih =>
    rw [tryMatchLoop, if_neg h, if_neg h2]
    intro hnd
    exact ih (nodup_keys_mapSet _ _ _ hnd)
  | case4 q k rooms players outs hq =>
    have hstop : tryMatchLoop env q k rooms players outs = (q, rooms, players, outs) := by
      rw [tryMatchLoop]
      exact hq
    rw [hstop]
    exact fun hnd => hnd

/-- The registry after a handler that touches at most one room: as before,
or with one `rooms.set`. -/
theorem onGameReady_rooms (env : Env) (s : State) (id : ConnId) (roomId : RoomId) :
    (onGameReady env s id roomId).1.rooms = s.rooms ∨
      ∃ k v, (onGameReady env s id roomId).1.rooms = mapSet s.rooms k v := by
  unfold onGameReady
  dsimp only
  repeat' split
  all_goals first | exact Or.inl rfl | exact Or.inr ⟨_, _, rfl⟩

theorem onGameFinish_rooms (env : Env) (s : State) (id : ConnId) (roomId : RoomId)
    (grid : Grid) :
    (onGameFinish env s id roomId grid).1.rooms = s.rooms ∨
      ∃ k v, (onGameFinish env s id roomId grid).1.rooms = mapSet s.rooms k v := by
  unfold onGameFinish
  repeat' split
  all_goals first | exact Or.inl rfl | exact Or.inr ⟨_, _, rfl⟩

theorem onRematchRequest_rooms (env : Env) (s : State) (id : ConnId) (roomId : RoomId) :
    (onRematchRequest env s id roomId).1.rooms = s.rooms ∨
      ∃ k v, (onRematchRequest env s id roomId).1.rooms = mapSet s.rooms k v := by
  unfold onRematchRequest
  dsimp only
  repeat' split
  all_goals first | exact Or.inl rfl | exact Or.inr ⟨_, _, rfl⟩

theorem onResume_rooms (s : State) (id : ConnId) (roomId : RoomId) (name : Option String) :
    (onResume s id roomId name).1.rooms = s.rooms ∨
      ∃ k v, (onResume s id roomId name).1.rooms = mapSet s.rooms k v := by
  unfold onResume
  dsimp only
  repeat' split
  all_goals first | exact Or.inl rfl | exact Or.inr ⟨_, _, rfl⟩

theorem onDisconnect_rooms (env : Env) (s : State) (id : ConnId) :
    (onDisconnect env s id).1.rooms = s.rooms ∨
      ∃ k v, (onDisconnect env s id).1.rooms = mapSet s.rooms k v := by
  unfold onDisconnect
  dsimp only
  repeat' split
  all_goals first | exact Or.inl rfl | exact Or.inr ⟨_, _, rfl⟩

theorem onTimer_rooms (env : Env) (s : State) (handle : Nat) :
    (onTimer env s handle).1.rooms = s.rooms ∨
      ∃ k v, (onTimer env s handle).1.rooms = mapSet s.rooms k v := by
  unfold onTimer
  dsimp only
  repeat' split
  all_goals first | exact Or.inl rfl | exact Or.inr ⟨_, _, rfl⟩

theorem keysOk_of_rooms (s s2 : State) (h : KeysOk s)
    (hr : s2.rooms = s.rooms ∨ ∃ k v, s2.rooms = mapSet s.rooms k v) : KeysOk s2 := by
  unfold KeysOk
  rcases hr with hr | ⟨k, v, hr⟩
  · rw [hr]
    exact h
  · rw [hr]
    exact nodup_keys_mapSet _ _ _ h

/-- Every step keeps the keys of the registry distinct. -/
theorem step_keysOk (env : Env) (s : State) (e : Event) (h : KeysOk s) :
    KeysOk (step env s e).1 := by
  cases e with
  | connection id => exact h
  | hello id name => exact h
  | ping id => exact h
  | matchFind id name =>
    simp only [step, onMatchFind]
    split
    · exact h
    · exact tryMatchLoop_keys env _ 0 s.rooms _ [] h
  | matchCancel id => exact h
  | gameReady id roomId => exact keysOk_of_rooms s _ h (onGameReady_rooms env s id roomId)
  | gameFinish id roomId grid =>
    exact keysOk_of_rooms s _ h (onGameFinish_rooms env s id roomId grid)
  | rematchRequest id roomId =>
    exact keysOk_of_rooms s _ h (onRematchRequest_rooms env s id roomId)
  | resumeRequest id roomId name =>
    exact keysOk_of_rooms s _ h (onResume_rooms s id roomId name)
  | disconnect id => exact keysOk_of_rooms s _ h (onDisconnect_rooms env s id)
  | timerFire handle => exact keysOk_of_rooms s _ h (onTimer_rooms env s handle)
  | sweep =>
    exact List.Nodup.sublist ((List.filter_sublist _).map _) h

theorem reachable_keysOk (s : State) (h : Reachable s) : KeysOk s := by
  induction h with
  | init => exact List.nodup_nil
  | step env s e _ ih => exact step_keysOk env s e ih

/-! ## Theorems: timeout handles -/

theorem onGameReady_timers (env : Env) (s : State) (id : ConnId) (roomId : RoomId) :
    (onGameReady env s id roomId).1.timers = s.timers ∧
      (onGameReady env s id roomId).1.nextTimer = s.nextTimer := by
  unfold onGameReady
  dsimp only
  repeat' split
  all_goals exact ⟨rfl, rfl⟩

theorem onGameFinish_timers (env : Env) (s : State) (id : ConnId) (roomId : RoomId)
    (grid : Grid) :
    (onGameFinish env s id roomId grid).1.timers = s.timers ∧
      (onGameFinish env s id roomId grid).1.nextTimer = s.nextTimer := by
  unfold onGameFinish
  repeat' split
  all_goals exact ⟨rfl, rfl⟩

theorem onRematchRequest_timers (env : Env) (s : State) (id : ConnId) (roomId : RoomId) :
    (onRematchRequest env s id roomId).1.timers = s.timers ∧
      (onRematchRequest env s id roomId).1.nextTimer = s.nextTimer := by
  unfold onRematchRequest
  dsimp only
  repeat' split
  all_goals exact ⟨rfl, rfl⟩

theorem onMatchFind_timers (env : Env) (s : State) (id : ConnId) (name : Option String) :
    (onMatchFind env s id name).1.timers = s.timers ∧
      (onMatchFind env s id name).1.nextTimer = s.nextTimer := by
  unfold onMatchFind
  dsimp only
  repeat' split
  all_goals exact ⟨rfl, rfl⟩

theorem timersOk_of_subset (s s2 : State) (h : TimersOk s)
    (ht : ∀ t ∈ s2.timers, t ∈ s.timers) (hn : s2.nextTimer = s.nextTimer) : TimersOk s2 := by
  intro t htm
  rw [hn]
  exact h t (ht t htm)

theorem onResume_timersOk (s : State) (id : ConnId) (roomId : RoomId) (name : Option String)
    (h : TimersOk s) : TimersOk (onResume s id roomId name).1 := by
  unfold onResume
  split
  · exact h
  · split
    · exact h
    · rename_i x1 room hroom x2 reclaimed hfind
      dsimp only
      refine timersOk_of_subset s _ h ?_ rfl
      intro t ht
      dsimp only at ht
      cases hd : room.dcTimer with
      | none =>
        rw [hd] at ht
        exact ht
      | some hh =>
        rw [hd] at ht
        exact List.mem_of_mem_filter ht

theorem onTimer_timersOk (env : Env) (s : State) (handle : Nat)
    (h : TimersOk s) : TimersOk (onTimer env s handle).1 := by
  unfold onTimer
  dsimp only
  repeat' split
  all_goals first
    | exact h
    | exact timersOk_of_subset s _ h (fun t ht => List.mem_of_mem_filter ht) rfl

theorem onDisconnect_timersOk (env : Env) (s : State) (id : ConnId)
    (h : TimersOk s) : TimersOk (onDisconnect env s id).1 := by
  unfold onDisconnect
  dsimp only
  split
  · exact h
  · split
    · split
      · exact h
      · rename_i room _
        intro t ht
        dsimp only at ht ⊢
        rcases List.mem_append.mp ht with h1 | h1
        · have hmem : t ∈ s.timers := by
            cases hd : room.dcTimer with
            | none =>
              rw [hd] at h1
              exact h1
            | some hh =>
              rw [hd] at h1
              exact List.mem_of_mem_filter h1
          exact Nat.lt_succ_of_lt (h t hmem)
        · simp only [List.mem_singleton] at h1
          rw [h1]
          exact Nat.lt_succ_self _
    · exact h

/-- Every step keeps the handles of the pending timeouts below the next
handle. -/
theorem step_timersOk (env : Env) (s : State) (e : Event) (h : TimersOk s) :
    TimersOk (step env s e).1 := by
  cases e with
  | connection id => exact h
  | hello id name => exact h
  | ping id => exact h
  | matchFind id name =>
    have := onMatchFind_timers env s id name
    exact timersOk_of_subset s _ h (fun t ht => by rw [step, this.1] at ht; exact ht)
      (by rw [step, this.2])
  | matchCancel id => exact h
  | gameReady id roomId =>
    have := onGameReady_timers env s id roomId
    exact timersOk_of_subset s _ h (fun t ht => by rw [step, this.1] at ht; exact ht)
      (by rw [step, this.2])
  | gameFinish id roomId grid =>
    have := onGameFinish_timers env s id roomId grid
    exact timersOk_of_subset s _ h (fun t ht => by rw [step, this.1] at ht; exact ht)
      (by rw [step, this.2])
  | rematchRequest id roomId =>
    have := onRematchRequest_timers env s id roomId
    exact timersOk_of_subset s _ h (fun t ht => by rw [step, this.1] at ht; exact ht)
      (by rw [step, this.2])
  | resumeRequest id roomId name => exact onResume_timersOk s id roomId name h
  | disconnect id => exact onDisconnect_timersOk env s id h
  | timerFire handle => exact onTimer_timersOk env s handle h
  | sweep => exact h

theorem reachable_timersOk (s : State) (h : Reachable s) : TimersOk s := by
  induction h with
  | init =>
    intro t ht
    simp [State.init] at ht
  | step env s e _ ih => exact step_timersOk env s e ih

/-! ## Theorems: disconnect and the grace timeout -/

/-- What `disconnect` does for a connection whose player record points at a
room of the registry. -/
theorem onDisconnect_room (env : Env) (s : State) (id : ConnId) (m : PlayerMeta)
    (roomId : RoomId) (room : Room) (hmeta : mapGet s.players id = some m)
    (hrid : m.roomId = some roomId) (hne : roomId ≠ "")
    (hroom : mapGet s.rooms roomId = some room) :
    onDisconnect env s id =
      ({ rooms := mapSet s.rooms roomId
            { players := room.players
              puzzle := room.puzzle
              startAtMs := room.startAtMs
              finished := room.finished
              ready := room.ready
              rematch := []
              gone := mapSet room.gone id env.now
              dcTimer := some s.nextTimer }
         queue := s.queue.eraseP fun e => e.socketId = id
         players := mapDelete s.players id
         timers := (match room.dcTimer with
            | some h => clearTimeout s.timers h
            | none => s.timers) ++ [⟨s.nextTimer, roomId, id, (env.now : Int) + 8000⟩]
         nextTimer := s.nextTimer + 1 },
        [Out.emit (Target.room roomId) (Msg.opponentDisconnected 8000)]) := by
  simp [onDisconnect, hmeta, hrid, truthy, hne, hroom, GRACE_MS]

theorem find_new_timer (timers : List Timer) (t : Timer)
    (h : ∀ x ∈ timers, x.id < t.id) :
    ((timers ++ [t]).find? fun x => x.id = t.id) = some t := by
  induction timers with
  | nil => simp
  | cons y ys ih =>
    have hy : y.id ≠ t.id := Nat.ne_of_lt (h y (List.mem_cons_self _ _))
    simp only [List.cons_append, List.find?_cons, decide_eq_true_eq, hy, decide_False]
    exact ih (fun x hx => h x (List.mem_cons_of_mem _ hx))

/-- What the timeout does when it is pending and due, and its room is known,
unfinished and has the captured connection in its gone-map. -/
theorem onTimer_forfeit (env : Env) (s : State) (handle : Nat) (t : Timer) (room : Room)
    (hfind : (s.timers.find? fun x => x.id = handle) = some t)
    (hdue : t.fireAt ≤ env.now) (hroom : mapGet s.rooms t.roomId = some room)
    (hfin : room.finished = false) (hgone : mapHas room.gone t.socketId = true) :
    onTimer env s handle =
      ({ s with
          timers := clearTimeout s.timers handle
          rooms := mapSet s.rooms t.roomId { room with finished := true } },
        [Out.emit (Target.room t.roomId)
          (Msg.gameWin (room.players.find? fun x => x ≠ t.socketId)
            (elapsedMs env.now room.startAtMs))]) := by
  have hnot : ¬ ((env.now : Int) < t.fireAt) := not_lt.mpr hdue
  simp [onTimer, hfind, hnot, hroom, hfin, hgone]

/-- What the timeout does when its room is no longer known or is finished:
the registry, the queue and the player records stay as they were and nothing
is emitted. -/
theorem onTimer_noop (env : Env) (s : State) (handle : Nat) (t : Timer)
    (hfind : (s.timers.find? fun x => x.id = handle) = some t)
    (hroom : mapGet s.rooms t.roomId = none ∨
      ∃ r, mapGet s.rooms t.roomId = some r ∧ r.finished = true) :
    (onTimer env s handle).2 = [] ∧ (onTimer env s handle).1.rooms = s.rooms ∧
      (onTimer env s handle).1.queue = s.queue ∧
      (onTimer env s handle).1.players = s.players := by
  by_cases hdue : (env.now : Int) < t.fireAt
  · simp [onTimer, hfind, hdue]
  · rcases hroom with h | ⟨r, h, hf⟩
    · simp [onTimer, hfind, hdue, h]
    · simp [onTimer, hfind, hdue, h, hf]

theorem mapGet_of_mem_nodup {α : Type} (m : List (String × α)) (k : String) (v : α)
    (hnd : (m.map Prod.fst).Nodup) (h : (k, v) ∈ m) : mapGet m k = some v := by
  induction m with
  | nil => simp at h
  | cons e m ih =>
    obtain ⟨k2, w⟩ := e
    simp only [List.map_cons, List.nodup_cons] at hnd
    rcases List.mem_cons.mp h with h2 | h2
    · simp only [Prod.mk.injEq] at h2
      simp [mapGet, h2.1, h2.2]
    · have hk : k2 ≠ k := by
        intro hk
        apply hnd.1
        rw [hk]
        exact List.mem_map.mpr ⟨(k, v), h2, rfl⟩
      simp only [mapGet, if_neg hk]
      exact ih hnd.2 h2

theorem sweep_settled (env : Env) (s : State) (roomId : RoomId) (h : Settled roomId s) :
    Settled roomId (sweep env s).1 := by
  refine ⟨List.Nodup.sublist ((List.filter_sublist _).map _) h.1, ?_⟩
  intro r hr
  have hmem := List.mem_of_mem_filter (mapGet_mem _ _ _ hr)
  exact h.2 r (mapGet_of_mem_nodup _ _ _ h.1 hmem)

theorem onTimer_settled (env : Env) (s : State) (roomId : RoomId) (handle : Nat)
    (h : Settled roomId s) :
    Settled roomId (onTimer env s handle).1 ∧
      ∀ o ∈ (onTimer env s handle).2, isWinFor roomId o = false := by
  refine ⟨⟨keysOk_of_rooms s _ h.1 (onTimer_rooms env s handle), ?_⟩, ?_⟩
  · unfold onTimer
    split
    · exact h.2
    · rename_i t _
      split
      · exact h.2
      · dsimp only
        split
        · exact h.2
        · rename_i r hr
          split
          · exact h.2
          · split
            · rename_i hf _
              intro r2 hr2
              dsimp only at hr2
              by_cases hk : roomId = t.roomId
              · rw [hk] at hr2
                rw [mapGet_mapSet_self] at hr2
                simp only [Option.some.injEq] at hr2
                rw [← hr2]
              · rw [mapGet_mapSet_ne _ _ _ _ hk] at hr2
                exact h.2 r2 hr2
            · exact h.2
  · unfold onTimer
    split
    · simp
    · rename_i t _
      split
      · simp
      · dsimp only
        split
        · simp
        · rename_i r hr
          split
          · simp
          · split
            · rename_i hf _
              intro o ho
              simp only [List.mem_singleton] at ho
              rw [ho]
              simp only [isWinFor, decide_eq_false_iff_not]
              intro hk
              rw [hk] at hr
              exact hf (h.2 r hr)
            · simp

/-- Once a room is settled, no run of timeouts and sweeps emits a `game:win`
for it. -/
theorem run_settled (roomId : RoomId) :
    ∀ (es : List (Env × Event)) (s : State), Settled roomId s →
      (∀ x ∈ es, isTimerOrSweep x.2 = true) →
      ∀ o ∈ (run s es).2, isWinFor roomId o = false := by
  intro es
  induction es with
  | nil =>
    intro s _ _ o ho
    simp [run] at ho
  | cons x es ih =>
    intro s hs hall o ho
    obtain ⟨env, e⟩ := x
    have he : isTimerOrSweep e = true := hall (env, e) (List.mem_cons_self _ _)
    have hrest : ∀ x ∈ es, isTimerOrSweep x.2 = true :=
      fun x hx => hall x (List.mem_cons_of_mem _ hx)
    simp only [run, List.mem_append] at ho
    cases e with
    | timerFire handle =>
      have hstep := onTimer_settled env s roomId handle hs
      rcases ho with ho | ho
      · exact hstep.2 o ho
      · exact ih _ hstep.1 hrest o ho
    | sweep =>
      rcases ho with ho | ho
      · simp [step, sweep] at ho
      · exact ih _ (sweep_settled env s roomId hs) hrest o ho
    | connection id => simp [isTimerOrSweep] at he
    | hello id name => simp [isTimerOrSweep] at he
    | ping id => simp [isTimerOrSweep] at he
    | matchFind id name => simp [isTimerOrSweep] at he
    | matchCancel id => simp [isTimerOrSweep] at he
    | gameReady id rid => simp [isTimerOrSweep] at he
    | gameFinish id rid grid => simp [isTimerOrSweep] at he
    | rematchRequest id rid => simp [isTimerOrSweep] at he
    | resumeRequest id rid name => simp [isTimerOrSweep] at he
    | disconnect id => simp [isTimerOrSweep] at he

theorem find_other (room : Room) (p q : ConnId)
    (hplayers : room.players = [p, q] ∨ room.players = [q, p]) (hne : p ≠ q) :
    (room.players.find? fun x => x ≠ p) = some q := by
  rcases hplayers with h | h
  · simp [h, List.find?_cons, hne, Ne.symm hne]
  · simp [h, List.find?_cons, hne, Ne.symm hne]

/-- The forfeit: in a reachable state, the due timeout of a connection `p`
that is still in the gone-map of its unfinished room with slots `p`, `q`. -/
theorem forfeit_fires (s : State) (hs : Reachable s) (p q : ConnId) (roomId : RoomId)
    (room : Room) (hroom : mapGet s.rooms roomId = some room) (hfin : room.finished = false)
    (hplayers : room.players = [p, q] ∨ room.players = [q, p]) (hne : p ≠ q)
    (env : Env) (handle : Nat) (t : Timer)
    (hfind : (s.timers.find? fun x => x.id = handle) = some t)
    (hrid : t.roomId = roomId) (hsock : t.socketId = p) (hdue : t.fireAt ≤ env.now)
    (hgone : mapHas room.gone p = true) :
    onTimer env s handle =
        ({ s with
            timers := clearTimeout s.timers handle
            rooms := mapSet s.rooms roomId { room with finished := true } },
          [Out.emit (Target.room roomId)
            (Msg.gameWin (some q) (specElapsed env.now room.startAtMs))]) ∧
      0 ≤ specElapsed env.now room.startAtMs ∧
      ∀ es : List (Env × Event), (∀ x ∈ es, isTimerOrSweep x.2 = true) →
        ∀ o ∈ (run (onTimer env s handle).1 es).2, isWinFor roomId o = false := by
  have hstart : room.startAtMs ≠ some 0 := reachable_startOk s hs _ (mapGet_mem _ _ _ hroom)
  have hel := elapsedMs_eq env.now room.startAtMs hstart
  have hfire := onTimer_forfeit env s handle t room hfind hdue (by rw [hrid]; exact hroom) hfin
    (by rw [hsock]; exact hgone)
  rw [hrid, hsock, find_other room p q hplayers hne, hel] at hfire
  refine ⟨hfire, by rw [← hel]; exact elapsedMs_nonneg _ _, ?_⟩
  intro es hall
  apply run_settled roomId es _ _ hall
  constructor
  · have hreach : Reachable (step env s (Event.timerFire handle)).1 :=
      Reachable.step env s _ hs
    exact reachable_keysOk _ hreach
  · intro r hr
    rw [hfire] at hr
    simp only [mapGet_mapSet_self, Option.some.injEq] at hr
    rw [← hr]

/-- C12 (amended): in a reachable state with an unfinished room of distinct
slots `p` and `q`: (a) the disconnect of `p`, when the player record of `p`
points at the room, puts `p` into the gone-map with the current instant and
arms a timeout for 8000 ms later, and when this timeout comes due next it sets
`finished` and emits exactly one `game:win` with winner `q` and `elapsedMs`
equal to `max(0, now - startAtMs)`, 0 without a start instant; (b) the same
holds for every due timeout of `p` that is still pending and finds `p` still in
the gone-map (no resume has removed `p`, and no later disconnect has replaced
the timeout), and after the firing no run of further timeouts and sweeps emits
a `game:win` for the room; (c) a timeout whose room has been deleted or is
already finished leaves registry, queue and player records as they were and
emits nothing. -/
theorem disconnect_forfeit (s : State) (hs : Reachable s) (p q : ConnId) (roomId : RoomId)
    (room : Room) (hroom : mapGet s.rooms roomId = some room) (hfin : room.finished = false)
    (hplayers : room.players = [p, q] ∨ room.players = [q, p]) (hne : p ≠ q) :
    (∀ (env : Env) (m : PlayerMeta), mapGet s.players p = some m → m.roomId = some roomId →
      mapGet (mapSet room.gone p (env.now : Int)) p = some (env.now : Int) ∧
      mapGet (onDisconnect env s p).1.rooms roomId
        = some { room with
            gone := mapSet room.gone p env.now, rematch := [], dcTimer := some s.nextTimer } ∧
      ((onDisconnect env s p).1.timers.find? fun x => x.id = s.nextTimer)
        = some ⟨s.nextTimer, roomId, p, (env.now : Int) + 8000⟩ ∧
      ∀ env2 : Env, env.now + 8000 ≤ env2.now →
        (onTimer env2 (onDisconnect env s p).1 s.nextTimer).2
            = [Out.emit (Target.room roomId)
                (Msg.gameWin (some q) (specElapsed env2.now room.startAtMs))] ∧
          (mapGet (onTimer env2 (onDisconnect env s p).1 s.nextTimer).1.rooms roomId).map
              (fun r => r.finished) = some true ∧
          ∀ es : List (Env × Event), (∀ x ∈ es, isTimerOrSweep x.2 = true) →
            ∀ o ∈ (run (onTimer env2 (onDisconnect env s p).1 s.nextTimer).1 es).2,
              isWinFor roomId o = false) ∧
    (∀ (env : Env) (handle : Nat) (t : Timer),
      (s.timers.find? fun x => x.id = handle) = some t →
      t.roomId = roomId → t.socketId = p → t.fireAt ≤ env.now → mapHas room.gone p = true →
      onTimer env s handle =
          ({ s with
              timers := clearTimeout s.timers handle
              rooms := mapSet s.rooms roomId { room with finished := true } },
            [Out.emit (Target.room roomId)
              (Msg.gameWin (some q) (specElapsed env.now room.startAtMs))]) ∧
        0 ≤ specElapsed env.now room.startAtMs ∧
        ∀ es : List (Env × Event), (∀ x ∈ es, isTimerOrSweep x.2 = true) →
          ∀ o ∈ (run (onTimer env s handle).1 es).2, isWinFor roomId o = false) ∧
    (∀ (s3 : State) (env : Env) (handle : Nat) (t : Timer),
      (s3.timers.find? fun x => x.id = handle) = some t →
      (mapGet s3.rooms t.roomId = none ∨
        ∃ r, mapGet s3.rooms t.roomId = some r ∧ r.finished = true) →
      (onTimer env s3 handle).2 = [] ∧ (onTimer env s3 handle).1.rooms = s3.rooms ∧
        (onTimer env s3 handle).1.queue = s3.queue ∧
        (onTimer env s3 handle).1.players = s3.players) := by
  refine ⟨?_, ?_, ?_⟩
  · intro env m hmeta hrid
    have hkey : roomId ≠ "" := (reachable_roomsOk s hs _ (mapGet_mem _ _ _ hroom)).1
    have hdis := onDisconnect_room env s p m roomId room hmeta hrid hkey hroom
    have hreach : Reachable (onDisconnect env s p).1 :=
      Reachable.step env s (Event.disconnect p) hs
    have htimers : ∀ x ∈ (match room.dcTimer with
        | some h => clearTimeout s.timers h
        | none => s.timers), x.id < s.nextTimer := by
      intro x hx
      apply reachable_timersOk s hs
      cases hd : room.dcTimer with
      | none =>
        rw [hd] at hx
        exact hx
      | some hh =>
        rw [hd] at hx
        exact List.mem_of_mem_filter hx
    have hfind : ((onDisconnect env s p).1.timers.find? fun x => x.id = s.nextTimer)
        = some ⟨s.nextTimer, roomId, p, (env.now : Int) + 8000⟩ := by
      rw [hdis]
      exact find_new_timer _ ⟨s.nextTimer, roomId, p, (env.now : Int) + 8000⟩ htimers
    have hroom1 : mapGet (onDisconnect env s p).1.rooms roomId
        = some { room with
            gone := mapSet room.gone p env.now, rematch := [], dcTimer := some s.nextTimer } := by
      rw [hdis]
      exact mapGet_mapSet_self _ _ _
    refine ⟨mapGet_mapSet_self _ _ _, hroom1, hfind, ?_⟩
    intro env2 hdue
    have hfire := forfeit_fires (onDisconnect env s p).1 hreach p q roomId _ hroom1 hfin
      hplayers hne env2 s.nextTimer _ hfind rfl rfl
      (by
        show (env.now : Int) + 8000 ≤ (env2.now : Int)
        omega)
      (by simp [mapHas, mapGet_mapSet_self])
    refine ⟨by rw [hfire.1], ?_, hfire.2.2⟩
    rw [hfire.1]
    simp [mapGet_mapSet_self]
  · intro env handle t hfind hrid hsock hdue hgone
    exact forfeit_fires s hs p q roomId room hroom hfin hplayers hne env handle t hfind hrid
      hsock hdue hgone
  · intro s3 env handle t hfind h
    exact onTimer_noop env s3 handle t hfind h

/-- C12 at the started sample room: `A` disconnects at clock 10000, the
timeout fires at clock 18000, and `B` wins with 14500 ms elapsed. -/
theorem disconnect_forfeit_witness :
    (onTimer (sampleEnv 18000) (onDisconnect (sampleEnv 10000) startedState "A").1 0).2
      = [Out.emit (Target.room "room_abc123")
          (Msg.gameWin (some "B") (specElapsed 18000 (some 3500)))] ∧
    specElapsed 18000 (some 3500) = 14500 :=
  ⟨((disconnect_forfeit startedState
      (reachable_run _ _ (reachable_run _ _ Reachable.init)) "A" "B" "room_abc123"
      { (newRoom "A" "B" (pickPuzzle 0)) with startAtMs := some 3500, ready := ["A", "B"] }
      (by decide) rfl (Or.inl rfl) (by decide)).1 (sampleEnv 10000)
      ⟨some "Ann", some "room_abc123", some false⟩ (by decide) rfl).2.2.2
      (sampleEnv 18000) (by decide) |>.1,
    by decide⟩

/-! ## Theorems: the rematch-set while somebody is gone -/

/-- What holds of the rematch-set in every reachable state: a room whose
gone-map is not empty has an empty rematch-set. The disconnect of a connection
whose player record points at a room records the connection in the gone-map of
that room with the current instant and empties its rematch-set; a
`game:rematch_request` for a room whose gone-map is not empty leaves the state
as it was; and after any step whatever, a room with a non-empty gone-map still
has an empty rematch-set. A room that the player record of the disconnecting
connection does not point at is not touched by the disconnect. -/
theorem gone_rematch_empty (s : State) (hs : Reachable s) :
    (∀ e ∈ s.rooms, e.2.gone ≠ [] → e.2.rematch = []) ∧
    (∀ (env : Env) (id : ConnId) (m : PlayerMeta) (roomId : RoomId) (room : Room),
      mapGet s.players id = some m → m.roomId = some roomId →
      mapGet s.rooms roomId = some room →
      mapGet (mapSet room.gone id (env.now : Int)) id = some (env.now : Int) ∧
      mapGet (onDisconnect env s id).1.rooms roomId
        = some { room with
            gone := mapSet room.gone id env.now, rematch := [], dcTimer := some s.nextTimer }) ∧
    (∀ (env : Env) (id : ConnId) (roomId : RoomId) (room : Room),
      mapGet s.rooms roomId = some room → room.gone ≠ [] →
      (onRematchRequest env s id roomId).1 = s) ∧
    (∀ (env : Env) (e : Event), ∀ x ∈ (step env s e).1.rooms,
      x.2.gone ≠ [] → x.2.rematch = []) := by
  refine ⟨fun e he => (reachable_roomsOk s hs e he).2, ?_, ?_, ?_⟩
  · intro env id m roomId room hmeta hrid hroom
    have hkey : roomId ≠ "" := (reachable_roomsOk s hs _ (mapGet_mem _ _ _ hroom)).1
    refine ⟨mapGet_mapSet_self _ _ _, ?_⟩
    rw [onDisconnect_room env s id m roomId room hmeta hrid hkey hroom]
    exact mapGet_mapSet_self _ _ _
  · intro env id roomId room hroom hgone
    by_cases hmem : id ∈ room.players
    · rw [rematch_denied_while_gone env s id roomId room hroom hmem hgone]
    · rw [(stale_requests_ignored env s id roomId none).1 (Or.inr ⟨room, hroom, hmem⟩) |>.2]
  · intro env e x hx
    exact (reachable_roomsOk _ (Reachable.step env s e hs) x hx).2

/-- The rematch discipline at the sample room in which `B` has asked for a
rematch before `A` disconnects: the disconnect empties the rematch-set. -/
theorem gone_rematch_empty_witness :
    (mapGet (run finishedState
        [(sampleEnv 15000, Event.rematchRequest "B" "room_abc123")]).1.rooms
        "room_abc123").map (fun r => (r.gone, r.rematch)) = some ([], ["B"]) ∧
    ∀ e ∈ (run finishedState
        [(sampleEnv 15000, Event.rematchRequest "B" "room_abc123"),
          (sampleEnv 16000, Event.disconnect "A")]).1.rooms,
      e.2.gone ≠ [] → e.2.rematch = [] :=
  ⟨rfl, (gone_rematch_empty _
    (reachable_run _ _ (Reachable.step _ _ _
      (reachable_run _ _ (reachable_run _ _ Reachable.init))))).1⟩

/-! ## Theorems: the code where it departs from the claims -/

/-- C15, the code after a resume: `A` signals ready, disconnects, and the new
connection `C` takes the slot of `A`. The ready-set is then `[A]` while the
slots are `[C, B]`, and a `game:ready` of `C` alone brings the ready-set to
size 2 and broadcasts `game:start`, though `B` has never signalled. -/
theorem ready_set_after_resume :
    (mapGet resumedState.rooms "room_abc123").map (fun r => (r.players, r.ready))
      = some (["C", "B"], ["A"]) ∧
    (onGameReady (sampleEnv 4000) resumedState "C" "room_abc123").2
      = [Out.emit (Target.room "room_abc123")
          (Msg.gameStart "room_abc123" (pickPuzzle 0) 5500)] ∧
    (mapGet (onGameReady (sampleEnv 4000) resumedState "C" "room_abc123").1.rooms
        "room_abc123").map (fun r => (r.players, r.ready, r.startAtMs))
      = some (["C", "B"], ["A", "C"], some 5500) := by
  decide

/-- C19, the code at a scheduled room: in the started sample room (both
ready, start instant 3500) a further `game:ready` of `A` at clock 3000 moves
the start instant to 4500 and broadcasts `game:start` again; a solved grid that
`A` then sends at clock 4400 wins with 0 ms elapsed. -/
theorem ready_again_moves_start :
    (mapGet startedState.rooms "room_abc123").map (fun r => (r.ready, r.startAtMs))
      = some (["A", "B"], some 3500) ∧
    (onGameReady (sampleEnv 3000) startedState "A" "room_abc123").2
      = [Out.emit (Target.room "room_abc123")
          (Msg.gameStart "room_abc123" (pickPuzzle 0) 4500)] ∧
    (mapGet (onGameReady (sampleEnv 3000) startedState "A" "room_abc123").1.rooms
        "room_abc123").map (fun r => (r.ready, r.startAtMs))
      = some (["A", "B"], some 4500) ∧
    (onGameFinish (sampleEnv 4400)
        (onGameReady (sampleEnv 3000) startedState "A" "room_abc123").1
        "A" "room_abc123" solvedGrid).2
      = [Out.emit (Target.room "room_abc123") (Msg.gameWin (some "A") 0)] := by
  decide

/-- C20, the code after two disconnects and one resume: `A` and `B`
disconnect (the timeout of `A` is replaced by that of `B`), then `C` resumes
and takes the slot of `A`, which clears the timeout of `B`. The room is then
unfinished with `B` in the gone-map, no timeout is pending, so no timeout
firing ever changes the state or emits anything, and a sweep keeps the room. -/
theorem gone_without_timer :
    (mapGet halfResumedState.rooms "room_abc123").map
        (fun r => (r.players, r.finished, r.gone, r.dcTimer))
      = some (["C", "B"], false, [("B", 11000)], none) ∧
    halfResumedState.timers = [] ∧
    (∀ (env : Env) (handle : Nat),
      onTimer env halfResumedState handle = (halfResumedState, [])) ∧
    ∀ env : Env, (sweep env halfResumedState).1.rooms = halfResumedState.rooms := by
  refine ⟨by decide, by decide, ?_, ?_⟩
  · intro env handle
    exact onTimer_not_pending env halfResumedState handle rfl
  · intro env
    rfl

/-! ## Theorems: the queue on which `tryMatch` runs -/

theorem tryMatchLoop_short (env : Env) (q : List QueueEntry) (k : Nat)
    (rooms : List (RoomId × Room)) (players : List (ConnId × PlayerMeta)) (outs : List Out) :
    (tryMatchLoop env q k rooms players outs).1.length ≤ 1 := by
  induction q, k, rooms, players, outs using tryMatchLoop.induct env with
  | case1 a b rest k rooms players outs h ih =>
    rw [tryMatchLoop, if_pos h]
    exact ih
  | case2 a b rest k rooms players outs h h2 ih =>
    rw [tryMatchLoop, if_neg h, if_pos h2]
    exact ih
  | case3 a b rest k rooms players outs h h2 roomId pA0 pB0 nameA nameB pA pB players2 rooms2 ih =>
    rw [tryMatchLoop, if_neg h, if_neg h2]
    exact ih
  | case4 q k rooms players outs hq =>
    have hstop : tryMatchLoop env q k rooms players outs = (q, rooms, players, outs) := by
      rw [tryMatchLoop]
      exact hq
    rw [hstop]
    cases q with
    | nil => simp
    | cons x xs =>
      cases xs with
      | nil => simp
      | cons y ys => exact absurd rfl (hq x y ys)

theorem queueShort_of_le (s s2 : State) (h : QueueShort s)
    (hle : s2.queue.length ≤ s.queue.length) : QueueShort s2 :=
  Nat.le_trans hle h

/-- Every step leaves at most one entry in the queue. -/
theorem step_queueShort (env : Env) (s : State) (e : Event) (h : QueueShort s) :
    QueueShort (step env s e).1 := by
  cases e with
  | connection id => exact h
  | hello id name => exact h
  | ping id => exact h
  | matchFind id name =>
    simp only [step, onMatchFind]
    split
    · exact h
    · exact tryMatchLoop_short env _ 0 _ _ []
  | matchCancel id =>
    exact queueShort_of_le s _ h (List.eraseP_sublist _).length_le
  | gameReady id roomId =>
    exact queueShort_of_le s _ h (by rw [step, onGameReady_queue])
  | gameFinish id roomId grid =>
    exact queueShort_of_le s _ h (by rw [step, onGameFinish_queue])
  | rematchRequest id roomId =>
    exact queueShort_of_le s _ h (by rw [step, onRematchRequest_queue])
  | resumeRequest id roomId name =>
    exact queueShort_of_le s _ h (by rw [step, onResume_queue])
  | disconnect id =>
    exact queueShort_of_le s _ h
      (by rw [step, onDisconnect_queue]; exact (List.eraseP_sublist _).length_le)
  | timerFire handle =>
    exact queueShort_of_le s _ h (by rw [step, onTimer_queue])
  | sweep =>
    exact queueShort_of_le s _ h (List.filter_sublist _).length_le

/-- In every reachable state the queue holds at most one entry. -/
theorem reachable_queueShort (s : State) (h : Reachable s) : QueueShort s := by
  induction h with
  | init => exact Nat.zero_le _
  | step env s e _ ih => exact step_queueShort env s e ih

/-- What `tryMatch` does on a queue of two distinct connected sockets. -/
theorem tryMatch_two (env : Env) (s : State) (a b : QueueEntry) (hq : s.queue = [a, b])
    (hne : a.socketId ≠ b.socketId) (ha : env.live a.socketId = true)
    (hb : env.live b.socketId = true) :
    (tryMatch env s).1.queue = [] ∧
    (tryMatch env s).1.rooms = mapSet s.rooms (makeRoomId (env.draws 0).suffix)
      (newRoom a.socketId b.socketId (pickPuzzle (env.draws 0).idx)) := by
  simp only [tryMatch, hq, tryMatchLoop, if_neg hne, ha, hb, Bool.not_true, Bool.or_self,
    Bool.false_eq_true, if_false, List.nil_append, and_self]

/-- The queue on which `match:find` runs `tryMatch`: the queue at rest with
the entry of the sender pushed. -/
theorem onMatchFind_tryMatch (env : Env) (s : State) (id : ConnId) (name : Option String)
    (hnew : (s.queue.any fun q => decide (q.socketId = id)) = false) :
    ∃ (e : QueueEntry) (s1 : State), e.socketId = id ∧ s1.queue = s.queue ++ [e] ∧
      s1.rooms = s.rooms ∧ (onMatchFind env s id name).1 = (tryMatch env s1).1 := by
  refine ⟨⟨id, strOr
      ({ (if truthy name then { (mapGet s.players id).getD emptyMeta with name := name }
          else (mapGet s.players id).getD emptyMeta) with finding := some true }).name
      "Player"⟩,
    { s with
      players := mapSet s.players id
        { (if truthy name then { (mapGet s.players id).getD emptyMeta with name := name }
            else (mapGet s.players id).getD emptyMeta) with finding := some true }
      queue := s.queue ++ [⟨id, strOr
        ({ (if truthy name then { (mapGet s.players id).getD emptyMeta with name := name }
            else (mapGet s.players id).getD emptyMeta) with finding := some true }).name
        "Player"⟩] },
    rfl, rfl, rfl, ?_⟩
  unfold onMatchFind
  simp only [hnew, Bool.false_eq_true, if_false]

/-- C8: `tryMatch` runs only inside `match:find`, on the queue of a reachable
state (which holds at most one entry) with the sender's entry pushed, so on at
most two entries. Whenever such a queue is free of duplicates and contains at
least two connected sockets, `a` and `b` being the two earliest-queued of
them, the queue is exactly `[a, b]` (no entry of a disconnected socket stands
between or before them), and `tryMatch` empties it and stores one room whose
slots are `[a, b]` in arrival order. -/
theorem tryMatch_pairs_live (s : State) (hs : Reachable s) (env : Env) (s1 : State)
    (e : QueueEntry) (hq : s1.queue = s.queue ++ [e])
    (hnd : (s1.queue.map QueueEntry.socketId).Nodup)
    (a b : QueueEntry) (rest : List QueueEntry)
    (hlive : (s1.queue.filter fun x => env.live x.socketId) = a :: b :: rest) :
    s.queue.length ≤ 1 ∧ s1.queue = [a, b] ∧
    (tryMatch env s1).1.queue = [] ∧
    (tryMatch env s1).1.rooms = mapSet s1.rooms (makeRoomId (env.draws 0).suffix)
      (newRoom a.socketId b.socketId (pickPuzzle (env.draws 0).idx)) ∧
    (∀ (id : ConnId) (name : Option String),
      (s.queue.any fun q => decide (q.socketId = id)) = false →
      ∃ (e2 : QueueEntry) (s2 : State), e2.socketId = id ∧ s2.queue = s.queue ++ [e2] ∧
        s2.rooms = s.rooms ∧ (onMatchFind env s id name).1 = (tryMatch env s2).1) := by
  have hshort : s.queue.length ≤ 1 := reachable_queueShort s hs
  have hlen : s1.queue.length ≤ 2 := by
    rw [hq, List.length_append]
    simp only [List.length_singleton]
    omega
  have hsub : (a :: b :: rest).Sublist s1.queue := by
    rw [← hlive]
    exact List.filter_sublist _
  have hqab : s1.queue = [a, b] := by
    have hl := hsub.length_le
    simp only [List.length_cons] at hl
    exact (hsub.eq_of_length_le (by simp only [List.length_cons]; omega)).symm.trans
      (by
        have hr : rest = [] := List.length_eq_zero.mp (by omega)
        rw [hr])
  have hboth : env.live a.socketId = true ∧ env.live b.socketId = true := by
    have hmem : ∀ x ∈ a :: b :: rest, env.live x.socketId = true := by
      intro x hx
      rw [← hlive] at hx
      exact (List.mem_filter.mp hx).2
    exact ⟨hmem a (List.mem_cons_self _ _),
      hmem b (List.mem_cons_of_mem _ (List.mem_cons_self _ _))⟩
  have hne : a.socketId ≠ b.socketId := by
    rw [hqab] at hnd
    simp only [List.map_cons, List.map_nil, List.nodup_cons, List.mem_singleton] at hnd
    exact hnd.1
  have htwo := tryMatch_two env s1 a b hqab hne hboth.1 hboth.2
  exact ⟨hshort, hqab, htwo.1, htwo.2,
    fun id name hnew => onMatchFind_tryMatch env s id name hnew⟩

/-- C8 at the state in which `A` waits and `B` asks for a match: the queue
`[A, B]` is paired into `room_abc123`. -/
theorem tryMatch_pairs_live_witness :
    ({ waitingState with queue := waitingState.queue ++ [⟨"B", "Bob"⟩] } : State).queue
      = [⟨"A", "Ann"⟩, ⟨"B", "Bob"⟩] ∧
    (tryMatch (sampleEnv 1000)
      { waitingState with queue := waitingState.queue ++ [⟨"B", "Bob"⟩] }).1.rooms
      = [("room_abc123", newRoom "A" "B" (pickPuzzle 0))] :=
  ⟨(tryMatch_pairs_live waitingState (reachable_run _ _ Reachable.init) (sampleEnv 1000)
      { waitingState with queue := waitingState.queue ++ [⟨"B", "Bob"⟩] } ⟨"B", "Bob"⟩ rfl
      (by decide) ⟨"A", "Ann"⟩ ⟨"B", "Bob"⟩ [] (by decide)).2.1,
    by decide⟩

/-! ## Theorems: two disconnects, and a participant matched elsewhere -/

/-- C12, counterexample: in the started sample room (slots `[A, B]`, start
instant 3500) `A` disconnects at clock 10000 and `B` at clock 11000, and nobody
resumes. The disconnect of `B` clears the timeout of `A`, so the timeout of `A`
does nothing at clock 18000, and the timeout of `B` at clock 19000 emits the
only `game:win` of the run, whose winner is `A`, not `B`. And when `A` has been
matched into another room before disconnecting, the disconnect does not touch
the sample room: it stays unfinished with an empty gone-map, and the only
`game:win` of the run goes to the other room. -/
theorem double_disconnect_winner :
    (run startedState doubleGoneRun).2
      = [Out.emit (Target.room "room_abc123") (Msg.opponentDisconnected 8000),
          Out.emit (Target.room "room_abc123") (Msg.opponentDisconnected 8000),
          Out.emit (Target.room "room_abc123") (Msg.gameWin (some "A") 15500)] ∧
    (mapGet (run startedState doubleGoneRun).1.rooms "room_abc123").map
        (fun r => (r.players, r.finished, r.gone))
      = some (["A", "B"], true, [("A", 10000), ("B", 11000)]) ∧
    ((run startedState strayRun).2.filter fun o =>
        isWinFor "room_abc123" o || isWinFor "room_xyz789" o)
      = [Out.emit (Target.room "room_xyz789") (Msg.gameWin (some "X") 0)] ∧
    (mapGet (run startedState strayRun).1.rooms "room_abc123").map
        (fun r => (r.players, r.finished, r.gone))
      = some (["A", "B"], false, []) := by
  decide

/-- C16, the code when a participant has been matched elsewhere: in the
finished sample room `A` asks for a rematch, then asks for a new match and is
paired with `X` into `room_xyz789`, then disconnects. The disconnect is
recorded in `room_xyz789` alone: `room_abc123` keeps an empty gone-map and the
rematch-set `[A]`. A `game:rematch_request` of `B` for `room_abc123` is then
not denied: it completes the rematch-set with the earlier request of the
disconnected `A`, resets the room and broadcasts `game:start`. -/
theorem rematch_reset_after_disconnect :
    (rematchedState.rooms.map fun e => (e.1, e.2.players, e.2.gone, e.2.rematch, e.2.finished))
      = [("room_abc123", ["A", "B"], [], ["A"], true),
          ("room_xyz789", ["A", "X"], [("A", 18000)], [], false)] ∧
    mapGet rematchedState.players "A" = none ∧
    (onRematchRequest (sampleEnvX 19000) rematchedState "B" "room_abc123").2
      = [Out.emit (Target.others "room_abc123" "B") (Msg.rematchStatus true),
          Out.emit (Target.room "room_abc123")
            (Msg.gameStart "room_abc123" (pickPuzzle 1) 20500)] ∧
    (mapGet (onRematchRequest (sampleEnvX 19000) rematchedState "B" "room_abc123").1.rooms
        "room_abc123").map (fun r => (r.finished, r.rematch, r.startAtMs))
      = some (false, [], some 20500) := by
  refine ⟨?_, ?_, ?_, ?_⟩ <;> rfl

end SudokuServer
